import Mathlib

/-!
Shallow embedding of the `mpmc` channel subsystem of the cgraph repository
(`src/mpmc/buffer.rs`, `src/mpmc/sender.rs`, `src/mpmc/receiver.rs`,
`src/mpmc/mod.rs`) together with theorems checking the specification's
claims about it.

Modelling conventions:
* `BufferInner` and the atomics of `Buffer<T>` are flattened into one
  `Buffer` structure; the mutex is modelled by treating each critical
  section of the Rust code as one atomic state transition.
* `VecDeque<T>` becomes `List T` (front of the deque = head of the list).
* `HashMap<usize, u64>` becomes an association list `List (Nat × Nat)`
  with lookup / replacing-insert / remove operations; the only iteration
  over the map in the source (`cursors.values().any(...)`) is
  order-independent, so the list model is faithful.
* `u64` / `usize` become `Nat`.  Overflow of `offset`/cursors is not
  modelled (the source itself would need centuries of traffic to overflow
  a `u64`); where the source computes `(cursor - offset) as usize` the
  embedding uses truncated `Nat` subtraction, and where the subtraction
  could underflow the out-of-range access is mapped to the same observable
  the source has there, a panic (`Option.none`).
* Mutex poisoning is modelled by a boolean `poisoned` field; every place
  the source does `self.inner.lock()?` (or `Condvar::wait(..)?`) checks it
  and propagates `ChannelError::Poisoned`, in the same order relative to
  the other checks as in the source.
* Blocking calls are split at their condition-variable waits: `send`
  becomes `send_enter` (up to the wait) and `send_resume` (the code run
  after `on_data_consumed.wait(inner)?` returns); `recv` becomes
  `recv_ready` (a loop iteration that finds the cursor state without
  waiting) and `recv_resume` (the code run after `on_new_data.wait(inner)?`
  returns).  Panics (`expect`) are modelled as distinguished outcomes.
* Condvar notifications are recorded as a list of `Notif` values emitted
  by each transition, so that which operation signals which condvar is
  part of the model.
-/

set_option autoImplicit false

/-- Error type of the channel (`ChannelError` in `src/mpmc/mod.rs`). -/
inductive ChannelError where
  | IsCorked
  | Poisoned
deriving DecidableEq

/-- The two condition variables owned by the buffer. -/
inductive Cv where
  | onNewData
  | onDataConsumed
deriving DecidableEq

/-- A condvar notification emitted by an operation: `notify_one` or `notify_all`. -/
inductive Notif where
  | one (cv : Cv)
  | all (cv : Cv)
deriving DecidableEq

/-- Lookup in the cursor map (`HashMap::get`). -/
def clookup (k : Nat) : List (Nat × Nat) → Option Nat
  | [] => none
  | (k', v) :: t => if k' = k then some v else clookup k t

/-- Replacing insert in the cursor map (`HashMap::insert`). -/
def cinsert (k v : Nat) : List (Nat × Nat) → List (Nat × Nat)
  | [] => [(k, v)]
  | (k', v') :: t => if k' = k then (k, v) :: t else (k', v') :: cinsert k v t

/-- Removal from the cursor map (`HashMap::remove`). -/
def cremove (k : Nat) : List (Nat × Nat) → List (Nat × Nat)
  | [] => []
  | (k', v') :: t => if k' = k then t else (k', v') :: cremove k t

/-- State of one channel buffer: the fields of `BufferInner<T>` (`data`,
`offset`, `cursors`, `next_cursor_id`) together with the atomics and
configuration of `Buffer<T>` (`corked`, `sender_count`, `bound`) and a
flag modelling whether the inner mutex is poisoned.  The global `id`
field plays no role in any claim and is omitted. -/
structure Buffer (T : Type) where
  data : List T
  offset : Nat
  cursors : List (Nat × Nat)
  next_cursor_id : Nat
  corked : Bool
  sender_count : Nat
  poisoned : Bool
  bound : Nat
deriving DecidableEq

/-- `Buffer::new(bound)`. -/
def Buffer.new (T : Type) (bound : Nat) : Buffer T :=
  { data := [], offset := 0, cursors := [], next_cursor_id := 0,
    corked := false, sender_count := 0, poisoned := false, bound := bound }

/-- `Buffer::is_corked`. -/
def Buffer.is_corked {T : Type} (b : Buffer T) : Bool := b.corked

/-- Outcome of the first critical section of `Buffer::send`. -/
inductive SendOutcome (T : Type) where
  | sent (b : Buffer T) (ns : List Notif)
  | wouldBlock
  | err (e : ChannelError)
deriving DecidableEq

/-- First part of `Buffer::send`: the initial cork check, the lock, and the
fast path `data.len() < bound` that pushes and notifies `on_new_data`.
When the ring is full the thread goes on to wait on `on_data_consumed`
(outcome `wouldBlock`, no state change). -/
def Buffer.send_enter {T : Type} (b : Buffer T) (v : T) : SendOutcome T :=
  if b.corked then .err .IsCorked
  else if b.poisoned then .err .Poisoned
  else if b.data.length < b.bound then
    .sent { b with data := b.data ++ [v] } [.all .onNewData]
  else .wouldBlock

/-- Second part of `Buffer::send`: the code run after
`self.on_data_consumed.wait(inner)?` returns.  The source re-checks only
`is_corked()` and then pushes unconditionally (it does not re-check
`data.len() < bound`). -/
def Buffer.send_resume {T : Type} (b : Buffer T) (v : T) :
    Except ChannelError Unit × Buffer T × List Notif :=
  if b.poisoned then (.error .Poisoned, b, [])
  else if b.corked then (.error .IsCorked, b, [])
  else (.ok (), { b with data := b.data ++ [v] }, [.all .onNewData])

/-- `Buffer::try_send`. -/
def Buffer.try_send {T : Type} (b : Buffer T) (v : T) :
    Except ChannelError (Option T) × Buffer T × List Notif :=
  if b.corked then (.error .IsCorked, b, [])
  else if b.poisoned then (.error .Poisoned, b, [])
  else if b.data.length < b.bound then
    (.ok none, { b with data := b.data ++ [v] }, [.all .onNewData])
  else (.ok (some v), b, [])

/-- `Buffer::move_buffer_window`: slide the window if no cursor is still at
(or before) the front, popping one item and notifying one waiter on
`on_data_consumed`. -/
def Buffer.move_buffer_window {T : Type} (b : Buffer T) : Buffer T × List Notif :=
  if b.cursors.any (fun p => decide (p.2 ≤ b.offset)) then (b, [])
  else ({ b with data := b.data.tail, offset := b.offset + 1 }, [.one .onDataConsumed])

/-- Shared body of `Buffer::recv` (after the wait loop) and of the data
path of `Buffer::try_recv`: read `data[cursor - offset]`, advance this
cursor by one, and slide the window when the cursor was at the head.
`none` models a panic: either `expect("Cursor id is invalid")` or
`expect("Error in cursor arithmetic")` (the latter also covers the
`cursor - offset` underflow, which panics or wraps to a huge index in the
source). -/
def Buffer.recv_body {T : Type} (b : Buffer T) (id : Nat) :
    Option (T × Buffer T × List Notif) :=
  match clookup id b.cursors with
  | none => none
  | some cursor =>
    match b.data[cursor - b.offset]? with
    | none => none
    | some v =>
      let b1 : Buffer T := { b with cursors := cinsert id (cursor + 1) b.cursors }
      if cursor = b.offset then some (v, b1.move_buffer_window)
      else some (v, b1, [])

/-- Outcome of one non-waiting iteration of the loop in `Buffer::recv`. -/
inductive RecvOutcome (T : Type) where
  | got (v : T) (b : Buffer T) (ns : List Notif)
  | corkedErr
  | blockOnNewData
  | poisonedErr
  | panicked
deriving DecidableEq

/-- One iteration of the loop in `Buffer::recv` up to (but not entering)
the wait on `on_new_data`: if the cursor has data, run the body; if it has
caught up, return `IsCorked` when corked and otherwise go on to wait. -/
def Buffer.recv_ready {T : Type} (b : Buffer T) (id : Nat) : RecvOutcome T :=
  if b.poisoned then .poisonedErr
  else
    match clookup id b.cursors with
    | none => .panicked
    | some cursor =>
      if b.data.length + b.offset ≤ cursor then
        if b.corked then .corkedErr else .blockOnNewData
      else
        match b.recv_body id with
        | none => .panicked
        | some (v, b', ns) => .got v b' ns

/-- Outcome of waking from the wait inside `Buffer::recv`. -/
inductive WakeOutcome (T : Type) where
  | got (v : T) (b : Buffer T) (ns : List Notif)
  | corkedErr
  | keepWaiting
  | poisonedErr
  | panicked
deriving DecidableEq

/-- The code of `Buffer::recv` run when `self.on_new_data.wait(inner)?`
returns: if the ring is non-empty, break out of the loop and run the body
(re-reading `offset` and the cursor); otherwise return `IsCorked` when
corked, else loop and wait again.  The source does not re-check that the
cursor is still inside the window before breaking out. -/
def Buffer.recv_resume {T : Type} (b : Buffer T) (id : Nat) : WakeOutcome T :=
  if b.poisoned then .poisonedErr
  else if b.data.isEmpty then
    if b.corked then .corkedErr else .keepWaiting
  else
    match b.recv_body id with
    | none => .panicked
    | some (v, b', ns) => .got v b' ns

/-- `Buffer::try_recv`.  The outer `none` models the panics of the two
`expect` calls. -/
def Buffer.try_recv {T : Type} (b : Buffer T) (id : Nat) :
    Option (Except ChannelError (Option T) × Buffer T × List Notif) :=
  if b.poisoned then some (.error .Poisoned, b, [])
  else
    match clookup id b.cursors with
    | none => none
    | some cursor =>
      if b.data.length + b.offset ≤ cursor then
        if b.corked then some (.error .IsCorked, b, [])
        else some (.ok none, b, [])
      else
        match b.recv_body id with
        | none => none
        | some (v, b', ns) => some (.ok (some v), b', ns)

/-- `Buffer::cork`: set the flag and notify-all on both condvars. -/
def Buffer.cork {T : Type} (b : Buffer T) : Buffer T × List Notif :=
  ({ b with corked := true }, [.all .onDataConsumed, .all .onNewData])

/-- `Buffer::add_sender`. -/
def Buffer.add_sender {T : Type} (b : Buffer T) : Buffer T :=
  { b with sender_count := b.sender_count + 1 }

/-- `Buffer::remove_sender`: decrement and return the new count.  (In the
source this is `fetch_sub` followed by `prev - 1`; `Nat` truncation at 0
matches only the reachable case `sender_count > 0`, which is the only case
in which the handles call it.) -/
def Buffer.remove_sender {T : Type} (b : Buffer T) : Nat × Buffer T :=
  (b.sender_count - 1, { b with sender_count := b.sender_count - 1 })

/-- `Buffer::new_receiver`: allocate the next cursor id at the current
offset. -/
def Buffer.new_receiver {T : Type} (b : Buffer T) : Except ChannelError (Nat × Buffer T) :=
  if b.poisoned then .error .Poisoned
  else .ok (b.next_cursor_id,
    { b with next_cursor_id := b.next_cursor_id + 1,
             cursors := cinsert b.next_cursor_id b.offset b.cursors })

/-- `Buffer::drop_receiver`: remove the cursor.  The source emits no
condvar notification here, which the empty `Notif` list records. -/
def Buffer.drop_receiver {T : Type} (b : Buffer T) (id : Nat) :
    Except ChannelError Unit × Buffer T × List Notif :=
  if b.poisoned then (.error .Poisoned, b, [])
  else (.ok (), { b with cursors := cremove id b.cursors }, [])

/-- `Buffer::len`. -/
def Buffer.len {T : Type} (b : Buffer T) : Except ChannelError Nat :=
  if b.poisoned then .error .Poisoned else .ok b.data.length

/-- `Sender::new` registers with the buffer (`add_sender`); `Clone` for
`Sender` does the same. -/
def Sender.new {T : Type} (b : Buffer T) : Buffer T := b.add_sender

/-- `Drop` for `Sender`: deregister, and cork when this was the last
sender. -/
def Sender.drop {T : Type} (b : Buffer T) : Buffer T × List Notif :=
  let r := b.remove_sender
  if r.1 = 0 then r.2.cork else (r.2, [])

/-- `Receiver::new`: `buffer.new_receiver().unwrap()` — the `unwrap` turns
a `Poisoned` error into a panic, modelled as `none`.  Returns the new
state and the allocated cursor id. -/
def Receiver.new {T : Type} (b : Buffer T) : Option (Buffer T × Nat) :=
  match b.new_receiver with
  | .error _ => none
  | .ok (id, b') => some (b', id)

/-- `Clone` for `Receiver` calls `Self::new(self.buffer.clone())`. -/
def Receiver.clone {T : Type} (b : Buffer T) : Option (Buffer T × Nat) :=
  Receiver.new b

/-- `Drop` for `Receiver`: calls `drop_receiver` and discards the result
(including a `Poisoned` error). -/
def Receiver.drop {T : Type} (b : Buffer T) (id : Nat) : Buffer T × List Notif :=
  (b.drop_receiver id).2

/-- `sync_channel(bound)`: a fresh buffer with one registered sender and
one receiver whose cursor (id 0) sits at offset 0.  Returns the buffer
state. -/
def channelInit (T : Type) (bound : Nat) : Buffer T :=
  match Receiver.new (Sender.new (Buffer.new T bound)) with
  | some (b, _) => b
  | none => Sender.new (Buffer.new T bound)

/-- Events labelling atomic transitions of the buffer. -/
inductive ChEvent (T : Type) where
  | sent (v : T)
  | received (id : Nat) (v : T)
  | tau

/-- One atomic transition of the buffer: each constructor is one critical
section of the source, executed by some thread.  The wake transitions
(`send_wake`, `recv_wake`) are enabled whenever their code could run,
which over-approximates scheduling (condition variables permit spurious
wakeups, so a waiting thread may resume at any time).  `sender_drop`
carries the precondition that a live sender exists. -/
inductive BStep {T : Type} : Buffer T → ChEvent T → Buffer T → Prop where
  | send_fast {b b' : Buffer T} {v : T} {ns : List Notif} :
      b.send_enter v = .sent b' ns → BStep b (.sent v) b'
  | send_wake {b b' : Buffer T} {v : T} {ns : List Notif} :
      b.send_resume v = (.ok (), b', ns) → BStep b (.sent v) b'
  | recv_first {b b' : Buffer T} {id : Nat} {v : T} {ns : List Notif} :
      b.recv_ready id = .got v b' ns → BStep b (.received id v) b'
  | recv_wake {b b' : Buffer T} {id : Nat} {v : T} {ns : List Notif} :
      b.recv_resume id = .got v b' ns → BStep b (.received id v) b'
  | try_recv_ok {b b' : Buffer T} {id : Nat} {v : T} {ns : List Notif} :
      b.try_recv id = some (.ok (some v), b', ns) → BStep b (.received id v) b'
  | cork_step {b : Buffer T} : BStep b .tau (b.cork).1
  | add_sender_step {b : Buffer T} : BStep b .tau b.add_sender
  | sender_drop_step {b : Buffer T} :
      0 < b.sender_count → BStep b .tau (Sender.drop b).1
  | new_receiver_step {b b' : Buffer T} {id : Nat} :
      b.new_receiver = .ok (id, b') → BStep b .tau b'
  | drop_receiver_step {b b' : Buffer T} {id : Nat} {ns : List Notif} :
      b.drop_receiver id = (.ok (), b', ns) → BStep b .tau b'

/-- A finite execution: a sequence of atomic transitions with its event
labels. -/
inductive BTrace {T : Type} : Buffer T → List (ChEvent T) → Buffer T → Prop where
  | nil {b : Buffer T} : BTrace b [] b
  | cons {b b' b'' : Buffer T} {e : ChEvent T} {es : List (ChEvent T)} :
      BStep b e b' → BTrace b' es b'' → BTrace b (e :: es) b''

/-- Values carried by one event into the send log. -/
def sentE {T : Type} : ChEvent T → List T
  | .sent v => [v]
  | _ => []

/-- The sequence of values sent during a trace, in order. -/
def sentOf {T : Type} : List (ChEvent T) → List T
  | [] => []
  | e :: es => sentE e ++ sentOf es

/-- The sequence of values received by one cursor during a trace, in
order. -/
def recvOf {T : Type} (id : Nat) : List (ChEvent T) → List T
  | [] => []
  | .received j v :: es => if j = id then v :: recvOf id es else recvOf id es
  | .sent _ :: es => recvOf id es
  | .tau :: es => recvOf id es

/-- Coupling invariant between a buffer state and the log of all values
ever appended to its ring: the ring is the suffix of the log from
`offset`, every cursor lies between `offset` and the end of the log, and
cursor ids are below the allocator. -/
structure MidInv {T : Type} (b : Buffer T) (log : List T) : Prop where
  data_eq : b.data = log.drop b.offset
  len_eq : b.offset + b.data.length = log.length
  csr_lb : ∀ p ∈ b.cursors, b.offset ≤ p.2
  csr_ub : ∀ p ∈ b.cursors, p.2 ≤ log.length
  csr_fresh : ∀ p ∈ b.cursors, p.1 < b.next_cursor_id
  csr_nodup : (b.cursors.map Prod.fst).Nodup

/-- The window/offset claim: `offset` is the minimum of the cursor values. -/
def offsetIsMin {T : Type} (b : Buffer T) : Prop :=
  (∀ p ∈ b.cursors, b.offset ≤ p.2) ∧ ∃ p ∈ b.cursors, p.2 = b.offset

/-- Repeated `try_recv` driver: perform up to `n` receives for one cursor,
collecting the values, stopping at the first outcome that is not
`Ok(Some(_))`. -/
def try_recv_list {T : Type} (b : Buffer T) (id : Nat) : Nat → List T × Buffer T
  | 0 => ([], b)
  | n + 1 =>
    match b.try_recv id with
    | some (.ok (some v), b', _) =>
      let r := try_recv_list b' id n
      (v :: r.1, r.2)
    | _ => ([], b)

/-- Scenario driver: buffer state after `try_send v`. -/
def afterSend (b : Buffer Nat) (v : Nat) : Buffer Nat := (b.try_send v).2.1

/-- Scenario driver: result value of `try_send v`. -/
def sendRes (b : Buffer Nat) (v : Nat) : Except ChannelError (Option Nat) :=
  (b.try_send v).1

/-- Scenario driver: buffer state after `try_recv` for cursor `id` (the
state is unchanged when the call would panic). -/
def afterRecv (b : Buffer Nat) (id : Nat) : Buffer Nat :=
  match b.try_recv id with
  | some (_, b', _) => b'
  | none => b

/-- Scenario driver: result value of `try_recv` for cursor `id` (`none`
models a panic). -/
def tryRecvOut (b : Buffer Nat) (id : Nat) :
    Option (Except ChannelError (Option Nat)) :=
  (b.try_recv id).map (fun r => r.1)

/-- Scenario driver: buffer state after cloning a `Receiver` (the state is
unchanged when the clone would panic). -/
def afterClone (b : Buffer Nat) : Buffer Nat :=
  match Receiver.clone b with
  | some (b', _) => b'
  | none => b


/-! Association-list lemmas for the cursor map. -/

theorem clookup_cinsert_self (k v : Nat) (l : List (Nat × Nat)) :
    clookup k (cinsert k v l) = some v := by
  induction l with
  | nil => simp [cinsert, clookup]
  | cons h t ih =>
    obtain ⟨k', v'⟩ := h
    by_cases hk : k' = k
    · simp [cinsert, hk, clookup]
    · simp [cinsert, hk, clookup, ih]

theorem clookup_cinsert_ne {j k : Nat} (v : Nat) (l : List (Nat × Nat)) (h : j ≠ k) :
    clookup j (cinsert k v l) = clookup j l := by
  have hkj : k ≠ j := Ne.symm h
  induction l with
  | nil => simp [cinsert, clookup, hkj]
  | cons p t ih =>
    obtain ⟨k', v'⟩ := p
    by_cases hk : k' = k
    · simp [cinsert, if_pos hk, clookup, hk, hkj]
    · simp only [cinsert, if_neg hk, clookup, ih]

theorem mem_cinsert {p : Nat × Nat} {k v : Nat} {l : List (Nat × Nat)}
    (h : p ∈ cinsert k v l) : p = (k, v) ∨ p ∈ l := by
  induction l with
  | nil => simpa [cinsert] using h
  | cons q t ih =>
    obtain ⟨k', v'⟩ := q
    by_cases hk : k' = k
    · simp only [cinsert, if_pos hk, List.mem_cons] at h
      rcases h with h | h
      · exact Or.inl h
      · exact Or.inr (List.mem_cons_of_mem _ h)
    · simp only [cinsert, if_neg hk, List.mem_cons] at h
      rcases h with h | h
      · exact Or.inr (by simp [h])
      · rcases ih h with h' | h'
        · exact Or.inl h'
        · exact Or.inr (List.mem_cons_of_mem _ h')

theorem self_mem_cinsert (k v : Nat) (l : List (Nat × Nat)) :
    (k, v) ∈ cinsert k v l := by
  induction l with
  | nil => simp [cinsert]
  | cons q t ih =>
    obtain ⟨k', v'⟩ := q
    by_cases hk : k' = k
    · simp [cinsert, hk]
    · simp only [cinsert, if_neg hk]
      exact List.mem_cons_of_mem _ ih

theorem mem_cinsert_keep {p : Nat × Nat} {k c : Nat} (v : Nat) {l : List (Nat × Nat)}
    (hl : clookup k l = some c) (hp : p ∈ l) (hne : p ≠ (k, c)) :
    p ∈ cinsert k v l := by
  induction l with
  | nil => simp at hp
  | cons q t ih =>
    obtain ⟨k', v'⟩ := q
    by_cases hk : k' = k
    · simp only [clookup, if_pos hk, Option.some.injEq] at hl
      rcases List.mem_cons.mp hp with h | h
      · exact absurd (by rw [h, hk, hl]) hne
      · simp only [cinsert, if_pos hk]
        exact List.mem_cons_of_mem _ h
    · simp only [clookup, if_neg hk] at hl
      rcases List.mem_cons.mp hp with h | h
      · simp [cinsert, hk, h]
      · simp only [cinsert, if_neg hk, List.mem_cons]
        exact Or.inr (ih hl h)

theorem clookup_mem {k v : Nat} {l : List (Nat × Nat)}
    (h : clookup k l = some v) : (k, v) ∈ l := by
  induction l with
  | nil => simp [clookup] at h
  | cons q t ih =>
    obtain ⟨k', v'⟩ := q
    by_cases hk : k' = k
    · simp only [clookup, if_pos hk, Option.some.injEq] at h
      exact List.mem_cons.mpr (Or.inl (by rw [hk, h]))
    · simp only [clookup, if_neg hk] at h
      exact List.mem_cons_of_mem _ (ih h)

theorem mem_cremove {p : Nat × Nat} {k : Nat} {l : List (Nat × Nat)}
    (h : p ∈ cremove k l) : p ∈ l := by
  induction l with
  | nil => simp [cremove] at h
  | cons q t ih =>
    obtain ⟨k', v'⟩ := q
    by_cases hk : k' = k
    · simp only [cremove, if_pos hk] at h
      exact List.mem_cons_of_mem _ h
    · simp only [cremove, if_neg hk, List.mem_cons] at h
      rcases h with h | h
      · simp [h]
      · exact List.mem_cons_of_mem _ (ih h)

theorem clookup_none_cremove {j k : Nat} {l : List (Nat × Nat)}
    (h : clookup j l = none) : clookup j (cremove k l) = none := by
  induction l with
  | nil => simp [cremove, clookup]
  | cons q t ih =>
    obtain ⟨k', v'⟩ := q
    by_cases hj : k' = j
    · simp [clookup, hj] at h
    · simp only [clookup, if_neg hj] at h
      by_cases hk : k' = k
      · simpa [cremove, hk] using h
      · simp [cremove, hk, clookup, hj, ih h]

/-! Characterization lemmas for the buffer operations. -/

theorem move_buffer_window_spec {T : Type} (b : Buffer T) :
    ((∃ p ∈ b.cursors, p.2 ≤ b.offset) ∧ b.move_buffer_window = (b, [])) ∨
    ((∀ p ∈ b.cursors, ¬ p.2 ≤ b.offset) ∧
      b.move_buffer_window =
        ({ b with data := b.data.tail, offset := b.offset + 1 }, [.one .onDataConsumed])) := by
  unfold Buffer.move_buffer_window
  by_cases hany : b.cursors.any (fun p => decide (p.2 ≤ b.offset)) = true
  · left
    refine ⟨?_, by rw [if_pos hany]⟩
    rcases List.any_eq_true.mp hany with ⟨p, hp, hle⟩
    exact ⟨p, hp, of_decide_eq_true hle⟩
  · right
    refine ⟨?_, by rw [if_neg hany]⟩
    intro p hp hle
    exact hany (List.any_eq_true.mpr ⟨p, hp, decide_eq_true hle⟩)

theorem recv_body_spec {T : Type} {b b' : Buffer T} {id : Nat} {v : T} {ns : List Notif}
    (h : b.recv_body id = some (v, b', ns)) :
    ∃ c, clookup id b.cursors = some c ∧
      b.data[c - b.offset]? = some v ∧
      b'.next_cursor_id = b.next_cursor_id ∧
      b'.corked = b.corked ∧
      b'.sender_count = b.sender_count ∧
      b'.poisoned = b.poisoned ∧
      b'.bound = b.bound ∧
      b'.cursors = cinsert id (c + 1) b.cursors ∧
      ((b'.data = b.data ∧ b'.offset = b.offset ∧
        (c = b.offset → ∃ p ∈ cinsert id (c + 1) b.cursors, p.2 ≤ b.offset)) ∨
       (c = b.offset ∧
        b'.data = b.data.tail ∧ b'.offset = b.offset + 1 ∧
        (∀ p ∈ cinsert id (c + 1) b.cursors, ¬ p.2 ≤ b.offset))) := by
  unfold Buffer.recv_body at h
  cases hc : clookup id b.cursors with
  | none => simp [hc] at h
  | some c =>
    simp only [hc] at h
    cases hg : b.data[c - b.offset]? with
    | none => simp [hg] at h
    | some w =>
      simp only [hg] at h
      by_cases hoff : c = b.offset
      · rw [if_pos hoff] at h
        simp only [Option.some.injEq, Prod.mk.injEq] at h
        obtain ⟨rfl, hmw⟩ := h
        rcases move_buffer_window_spec
            { data := b.data, offset := b.offset, cursors := cinsert id (c + 1) b.cursors,
              next_cursor_id := b.next_cursor_id, corked := b.corked,
              sender_count := b.sender_count, poisoned := b.poisoned, bound := b.bound }
          with ⟨hex, heq⟩ | ⟨hall, heq⟩
        · rw [heq] at hmw
          simp only [Prod.mk.injEq] at hmw
          obtain ⟨hb, hns⟩ := hmw
          subst hb
          exact ⟨c, rfl, hg, rfl, rfl, rfl, rfl, rfl, rfl,
            Or.inl ⟨rfl, rfl, fun _ => hex⟩⟩
        · rw [heq] at hmw
          simp only [Prod.mk.injEq] at hmw
          obtain ⟨hb, hns⟩ := hmw
          subst hb
          exact ⟨c, rfl, hg, rfl, rfl, rfl, rfl, rfl, rfl,
            Or.inr ⟨hoff, rfl, rfl, hall⟩⟩
      · rw [if_neg hoff] at h
        simp only [Option.some.injEq, Prod.mk.injEq] at h
        obtain ⟨rfl, hb, hns⟩ := h
        subst hb
        exact ⟨c, rfl, hg, rfl, rfl, rfl, rfl, rfl, rfl,
          Or.inl ⟨rfl, rfl, fun hco => absurd hco hoff⟩⟩

theorem try_recv_ok_recv_body {T : Type} {b b' : Buffer T} {id : Nat} {v : T}
    {ns : List Notif} (h : b.try_recv id = some (.ok (some v), b', ns)) :
    b.poisoned = false ∧ b.recv_body id = some (v, b', ns) := by
  unfold Buffer.try_recv at h
  by_cases hp : b.poisoned
  · simp [hp] at h
  · simp only [hp, if_false, Bool.false_eq_true] at h
    refine ⟨by simp [hp], ?_⟩
    cases hc : clookup id b.cursors with
    | none => rw [hc] at h; simp at h
    | some c =>
      rw [hc] at h
      simp only at h
      by_cases hcaught : b.data.length + b.offset ≤ c
      · rw [if_pos hcaught] at h
        by_cases hck : b.corked <;> simp [hck] at h
      · rw [if_neg hcaught] at h
        cases hb : b.recv_body id with
        | none => rw [hb] at h; simp at h
        | some r =>
          rw [hb] at h
          obtain ⟨w, b'', ns'⟩ := r
          simp only [Option.some.injEq, Prod.mk.injEq] at h
          obtain ⟨hw, hb', hns⟩ := h
          simp only [Except.ok.injEq, Option.some.injEq] at hw
          rw [hw, hb', hns]

theorem recv_ready_got_recv_body {T : Type} {b b' : Buffer T} {id : Nat} {v : T}
    {ns : List Notif} (h : b.recv_ready id = .got v b' ns) :
    b.poisoned = false ∧ b.recv_body id = some (v, b', ns) := by
  unfold Buffer.recv_ready at h
  by_cases hp : b.poisoned
  · simp [hp] at h
  · simp only [hp, if_false, Bool.false_eq_true] at h
    refine ⟨by simp [hp], ?_⟩
    cases hc : clookup id b.cursors with
    | none => rw [hc] at h; simp at h
    | some c =>
      rw [hc] at h
      simp only at h
      by_cases hcaught : b.data.length + b.offset ≤ c
      · rw [if_pos hcaught] at h
        by_cases hck : b.corked <;> simp [hck] at h
      · rw [if_neg hcaught] at h
        cases hb : b.recv_body id with
        | none => rw [hb] at h; simp at h
        | some r =>
          rw [hb] at h
          obtain ⟨w, b'', ns'⟩ := r
          simp only [RecvOutcome.got.injEq] at h
          obtain ⟨hw, hb', hns⟩ := h
          rw [hw, hb', hns]

theorem recv_resume_got_recv_body {T : Type} {b b' : Buffer T} {id : Nat} {v : T}
    {ns : List Notif} (h : b.recv_resume id = .got v b' ns) :
    b.poisoned = false ∧ b.recv_body id = some (v, b', ns) := by
  unfold Buffer.recv_resume at h
  by_cases hp : b.poisoned
  · simp [hp] at h
  · simp only [hp, if_false, Bool.false_eq_true] at h
    refine ⟨by simp [hp], ?_⟩
    by_cases he : b.data.isEmpty
    · rw [if_pos he] at h
      by_cases hck : b.corked <;> simp [hck] at h
    · rw [if_neg he] at h
      cases hb : b.recv_body id with
      | none => rw [hb] at h; simp at h
      | some r =>
        rw [hb] at h
        obtain ⟨w, b'', ns'⟩ := r
        simp only [WakeOutcome.got.injEq] at h
        obtain ⟨hw, hb', hns⟩ := h
        rw [hw, hb', hns]

theorem send_enter_sent_spec {T : Type} {b b' : Buffer T} {v : T} {ns : List Notif}
    (h : b.send_enter v = .sent b' ns) :
    b.corked = false ∧ b.poisoned = false ∧ b.data.length < b.bound ∧
      b' = { b with data := b.data ++ [v] } ∧ ns = [.all .onNewData] := by
  unfold Buffer.send_enter at h
  by_cases hck : b.corked
  · simp [hck] at h
  · by_cases hp : b.poisoned
    · simp [hck, hp] at h
    · by_cases hlen : b.data.length < b.bound
      · have hckf : b.corked = false := by simp [hck]
        have hpf : b.poisoned = false := by simp [hp]
        simp only [hck, hp, if_false, Bool.false_eq_true, if_pos hlen,
          SendOutcome.sent.injEq] at h
        refine ⟨hckf, hpf, hlen, ?_, h.2.symm⟩
        rw [← h.1]
        simp [hckf, hpf]
      · simp [hck, hp, hlen] at h

theorem send_resume_ok_spec {T : Type} {b b' : Buffer T} {v : T} {ns : List Notif}
    (h : b.send_resume v = (.ok (), b', ns)) :
    b.poisoned = false ∧ b.corked = false ∧
      b' = { b with data := b.data ++ [v] } ∧ ns = [.all .onNewData] := by
  unfold Buffer.send_resume at h
  by_cases hp : b.poisoned
  · simp [hp] at h
  · by_cases hck : b.corked
    · simp [hp, hck] at h
    · have hckf : b.corked = false := by simp [hck]
      have hpf : b.poisoned = false := by simp [hp]
      simp only [hp, hck, if_false, Bool.false_eq_true, Prod.mk.injEq] at h
      refine ⟨hpf, hckf, ?_, h.2.2.symm⟩
      rw [← h.2.1]
      simp [hckf, hpf]

theorem new_receiver_ok_spec {T : Type} {b b' : Buffer T} {id : Nat}
    (h : b.new_receiver = .ok (id, b')) :
    b.poisoned = false ∧ id = b.next_cursor_id ∧
      b' = { b with next_cursor_id := b.next_cursor_id + 1,
                    cursors := cinsert b.next_cursor_id b.offset b.cursors } := by
  unfold Buffer.new_receiver at h
  by_cases hp : b.poisoned
  · simp [hp] at h
  · have hpf : b.poisoned = false := by simp [hp]
    simp only [hp, if_false, Bool.false_eq_true, Except.ok.injEq, Prod.mk.injEq] at h
    refine ⟨hpf, h.1.symm, ?_⟩
    rw [← h.2]
    simp [hpf]

theorem drop_receiver_ok_spec {T : Type} {b b' : Buffer T} {id : Nat} {ns : List Notif}
    (h : b.drop_receiver id = (.ok (), b', ns)) :
    b.poisoned = false ∧ b' = { b with cursors := cremove id b.cursors } ∧ ns = [] := by
  unfold Buffer.drop_receiver at h
  by_cases hp : b.poisoned
  · simp [hp] at h
  · have hpf : b.poisoned = false := by simp [hp]
    simp only [hp, if_false, Bool.false_eq_true, Prod.mk.injEq] at h
    refine ⟨hpf, ?_, h.2.2.symm⟩
    rw [← h.2.1]
    simp [hpf]

theorem sender_drop_spec {T : Type} (b : Buffer T) :
    (b.sender_count - 1 = 0 ∧
      (Sender.drop b).1 = { b with sender_count := b.sender_count - 1, corked := true }) ∨
    (b.sender_count - 1 ≠ 0 ∧
      (Sender.drop b).1 = { b with sender_count := b.sender_count - 1 }) := by
  unfold Sender.drop Buffer.remove_sender Buffer.cork
  by_cases hz : b.sender_count - 1 = 0
  · left
    exact ⟨hz, by simp [hz]⟩
  · right
    exact ⟨hz, by simp [hz]⟩


theorem keys_cinsert_mem {x k v : Nat} {l : List (Nat × Nat)}
    (h : x ∈ (cinsert k v l).map Prod.fst) : x = k ∨ x ∈ l.map Prod.fst := by
  rcases List.mem_map.mp h with ⟨p, hp, hx⟩
  rcases mem_cinsert hp with h' | h'
  · left; rw [← hx, h']
  · right; exact List.mem_map.mpr ⟨p, h', hx⟩

theorem keysNodup_cinsert {k v : Nat} {l : List (Nat × Nat)}
    (h : (l.map Prod.fst).Nodup) : ((cinsert k v l).map Prod.fst).Nodup := by
  induction l with
  | nil => simp [cinsert]
  | cons q t ih =>
    obtain ⟨k', v'⟩ := q
    simp only [List.map_cons, List.nodup_cons] at h
    by_cases hk : k' = k
    · subst hk
      simpa [cinsert, List.nodup_cons] using h
    · simp only [cinsert, if_neg hk, List.map_cons, List.nodup_cons]
      refine ⟨fun hmem => ?_, ih h.2⟩
      rcases keys_cinsert_mem hmem with h' | h'
      · exact hk h'
      · exact h.1 h'

theorem keysNodup_cremove {k : Nat} {l : List (Nat × Nat)}
    (h : (l.map Prod.fst).Nodup) : ((cremove k l).map Prod.fst).Nodup := by
  induction l with
  | nil => simp [cremove]
  | cons q t ih =>
    obtain ⟨k', v'⟩ := q
    simp only [List.map_cons, List.nodup_cons] at h
    by_cases hk : k' = k
    · simpa [cremove, hk] using h.2
    · simp only [cremove, if_neg hk, List.map_cons, List.nodup_cons]
      refine ⟨fun hmem => ?_, ih h.2⟩
      rcases List.mem_map.mp hmem with ⟨p, hp, hx⟩
      exact h.1 (List.mem_map.mpr ⟨p, mem_cremove hp, hx⟩)

theorem clookup_cremove_ne {j k : Nat} {l : List (Nat × Nat)} (h : j ≠ k) :
    clookup j (cremove k l) = clookup j l := by
  induction l with
  | nil => simp [cremove]
  | cons q t ih =>
    obtain ⟨k', v'⟩ := q
    by_cases hk : k' = k
    · have hkj : ¬ k' = j := by rw [hk]; exact Ne.symm h
      simp [cremove, if_pos hk, clookup, hkj]
    · simp only [cremove, if_neg hk, clookup, ih]

theorem clookup_cremove_self {k : Nat} {l : List (Nat × Nat)}
    (h : (l.map Prod.fst).Nodup) : clookup k (cremove k l) = none := by
  induction l with
  | nil => simp [cremove, clookup]
  | cons q t ih =>
    obtain ⟨k', v'⟩ := q
    simp only [List.map_cons, List.nodup_cons] at h
    by_cases hk : k' = k
    · subst hk
      simp only [cremove, if_pos rfl]
      cases hl : clookup k' t with
      | none => exact hl
      | some x => exact absurd (List.mem_map.mpr ⟨(k', x), clookup_mem hl, rfl⟩) h.1
    · simp only [cremove, if_neg hk, clookup, if_neg hk]
      exact ih h.2

/-! Preservation of the coupling invariant `MidInv` by every atomic
transition. -/

theorem recv_body_mid {T : Type} {b b' : Buffer T} {id : Nat} {v : T} {ns : List Notif}
    {log : List T} (h : b.recv_body id = some (v, b', ns)) (hm : MidInv b log) :
    MidInv b' log ∧
    ∃ c, clookup id b.cursors = some c ∧ log[c]? = some v ∧ c < log.length ∧
      b'.cursors = cinsert id (c + 1) b.cursors ∧
      b'.next_cursor_id = b.next_cursor_id ∧
      b'.corked = b.corked ∧ b'.sender_count = b.sender_count ∧
      b'.poisoned = b.poisoned ∧ b'.bound = b.bound := by
  obtain ⟨c, hc, hg, hnext, hck, hsc, hp, hbd, hcur, hdis⟩ := recv_body_spec h
  have hmem : (id, c) ∈ b.cursors := clookup_mem hc
  have hoc : b.offset ≤ c := hm.csr_lb _ hmem
  have hlt : c - b.offset < b.data.length := (List.getElem?_eq_some.mp hg).1
  have hclen : c < log.length := by
    have := hm.len_eq
    omega
  have hlogv : log[c]? = some v := by
    rw [hm.data_eq] at hg
    rw [List.getElem?_drop] at hg
    rwa [Nat.add_sub_cancel' hoc] at hg
  refine ⟨?_, c, hc, hlogv, hclen, hcur, hnext, hck, hsc, hp, hbd⟩
  rcases hdis with ⟨hd, ho, _⟩ | ⟨hco, hd, ho, hall⟩
  · exact
      { data_eq := by rw [hd, ho, hm.data_eq]
        len_eq := by rw [hd, ho, hm.len_eq]
        csr_lb := by
          intro p hp'
          rw [ho]
          rw [hcur] at hp'
          rcases mem_cinsert hp' with h' | h'
          · rw [h']; omega
          · exact hm.csr_lb _ h'
        csr_ub := by
          intro p hp'
          rw [hcur] at hp'
          rcases mem_cinsert hp' with h' | h'
          · rw [h']; omega
          · exact hm.csr_ub _ h'
        csr_fresh := by
          intro p hp'
          rw [hnext]
          rw [hcur] at hp'
          rcases mem_cinsert hp' with h' | h'
          · rw [h']
            exact hm.csr_fresh (id, c) hmem
          · exact hm.csr_fresh _ h'
        csr_nodup := by
          rw [hcur]
          exact keysNodup_cinsert hm.csr_nodup }
  · have hlen1 : 1 ≤ b.data.length := by omega
    exact
      { data_eq := by rw [hd, ho, hm.data_eq, List.tail_drop]
        len_eq := by
          rw [hd, ho, List.length_tail]
          have := hm.len_eq
          omega
        csr_lb := by
          intro p hp'
          rw [ho]
          rw [hcur] at hp'
          have := hall p hp'
          omega
        csr_ub := by
          intro p hp'
          rw [hcur] at hp'
          rcases mem_cinsert hp' with h' | h'
          · rw [h']; omega
          · exact hm.csr_ub _ h'
        csr_fresh := by
          intro p hp'
          rw [hnext]
          rw [hcur] at hp'
          rcases mem_cinsert hp' with h' | h'
          · rw [h']
            exact hm.csr_fresh (id, c) hmem
          · exact hm.csr_fresh _ h'
        csr_nodup := by
          rw [hcur]
          exact keysNodup_cinsert hm.csr_nodup }

theorem bstep_mid {T : Type} {b b' : Buffer T} {e : ChEvent T} {log : List T}
    (hs : BStep b e b') (hm : MidInv b log) : MidInv b' (log ++ sentE e) := by
  have hol : b.offset ≤ log.length := by
    have := hm.len_eq; omega
  cases hs with
  | send_fast h =>
    obtain ⟨_, _, _, hb', _⟩ := send_enter_sent_spec h
    subst hb'
    exact
      { data_eq := by
          simp only [sentE]
          rw [List.drop_append_of_le_length hol, ← hm.data_eq]
        len_eq := by
          simp only [sentE, List.length_append, List.length_append]
          have := hm.len_eq
          simp only [List.length_append, List.length_cons, List.length_nil]
          omega
        csr_lb := hm.csr_lb
        csr_ub := by
          intro p hp'
          have := hm.csr_ub _ hp'
          simp only [sentE, List.length_append, List.length_cons, List.length_nil]
          omega
        csr_fresh := hm.csr_fresh
        csr_nodup := hm.csr_nodup }
  | send_wake h =>
    obtain ⟨_, _, hb', _⟩ := send_resume_ok_spec h
    subst hb'
    exact
      { data_eq := by
          simp only [sentE]
          rw [List.drop_append_of_le_length hol, ← hm.data_eq]
        len_eq := by
          have := hm.len_eq
          simp only [sentE, List.length_append, List.length_cons, List.length_nil]
          omega
        csr_lb := hm.csr_lb
        csr_ub := by
          intro p hp'
          have := hm.csr_ub _ hp'
          simp only [sentE, List.length_append, List.length_cons, List.length_nil]
          omega
        csr_fresh := hm.csr_fresh
        csr_nodup := hm.csr_nodup }
  | recv_first h =>
    obtain ⟨_, hb⟩ := recv_ready_got_recv_body h
    simpa only [sentE, List.append_nil] using (recv_body_mid hb hm).1
  | recv_wake h =>
    obtain ⟨_, hb⟩ := recv_resume_got_recv_body h
    simpa only [sentE, List.append_nil] using (recv_body_mid hb hm).1
  | try_recv_ok h =>
    obtain ⟨_, hb⟩ := try_recv_ok_recv_body h
    simpa only [sentE, List.append_nil] using (recv_body_mid hb hm).1
  | cork_step =>
    simp only [sentE, List.append_nil, Buffer.cork]
    exact
      { data_eq := hm.data_eq
        len_eq := hm.len_eq
        csr_lb := hm.csr_lb
        csr_ub := hm.csr_ub
        csr_fresh := hm.csr_fresh
        csr_nodup := hm.csr_nodup }
  | add_sender_step =>
    simp only [sentE, List.append_nil, Buffer.add_sender]
    exact
      { data_eq := hm.data_eq
        len_eq := hm.len_eq
        csr_lb := hm.csr_lb
        csr_ub := hm.csr_ub
        csr_fresh := hm.csr_fresh
        csr_nodup := hm.csr_nodup }
  | sender_drop_step hpos =>
    rcases sender_drop_spec b with ⟨_, heq⟩ | ⟨_, heq⟩ <;>
      · rw [heq]
        simp only [sentE, List.append_nil]
        exact
          { data_eq := hm.data_eq
            len_eq := hm.len_eq
            csr_lb := hm.csr_lb
            csr_ub := hm.csr_ub
            csr_fresh := hm.csr_fresh
            csr_nodup := hm.csr_nodup }
  | new_receiver_step h =>
    obtain ⟨_, _, hb'⟩ := new_receiver_ok_spec h
    subst hb'
    simp only [sentE, List.append_nil]
    exact
      { data_eq := hm.data_eq
        len_eq := hm.len_eq
        csr_lb := by
          intro p hp'
          rcases mem_cinsert hp' with h' | h'
          · rw [h']
          · exact hm.csr_lb _ h'
        csr_ub := by
          intro p hp'
          rcases mem_cinsert hp' with h' | h'
          · rw [h']; exact hol
          · exact hm.csr_ub _ h'
        csr_fresh := by
          intro p hp'
          show p.1 < b.next_cursor_id + 1
          rcases mem_cinsert hp' with h' | h'
          · rw [h']
            show b.next_cursor_id < b.next_cursor_id + 1
            omega
          · have := hm.csr_fresh _ h'
            omega
        csr_nodup := keysNodup_cinsert hm.csr_nodup }
  | drop_receiver_step h =>
    obtain ⟨_, hb', _⟩ := drop_receiver_ok_spec h
    subst hb'
    simp only [sentE, List.append_nil]
    exact
      { data_eq := hm.data_eq
        len_eq := hm.len_eq
        csr_lb := fun p hp' => hm.csr_lb _ (mem_cremove hp')
        csr_ub := fun p hp' => hm.csr_ub _ (mem_cremove hp')
        csr_fresh := fun p hp' => hm.csr_fresh _ (mem_cremove hp')
        csr_nodup := keysNodup_cremove hm.csr_nodup }

theorem btrace_mid {T : Type} {b bf : Buffer T} {es : List (ChEvent T)} {log : List T}
    (ht : BTrace b es bf) (hm : MidInv b log) : MidInv bf (log ++ sentOf es) := by
  induction ht generalizing log with
  | nil => simpa only [sentOf, List.append_nil] using hm
  | cons hs ht ih =>
    have := ih (bstep_mid hs hm)
    simpa only [sentOf, List.append_assoc] using this

/-! Cursor-tracking lemmas along traces. -/

theorem recv_body_lookup_aux {T : Type} {b b' : Buffer T} {j id : Nat} {v : T}
    {ns : List Notif} (hb : b.recv_body j = some (v, b', ns))
    (hn : clookup id b.cursors = none) (hid : id < b.next_cursor_id) :
    clookup id b'.cursors = none ∧ id < b'.next_cursor_id := by
  obtain ⟨c, hc, _, hnext, _, _, _, _, hcur, _⟩ := recv_body_spec hb
  have hne : id ≠ j := by
    intro hij
    rw [hij] at hn
    rw [hn] at hc
    exact Option.noConfusion hc
  constructor
  · rw [hcur, clookup_cinsert_ne _ _ hne]
    exact hn
  · rw [hnext]
    exact hid

theorem bstep_lookup_none {T : Type} {b b' : Buffer T} {e : ChEvent T} {id : Nat}
    (hs : BStep b e b') (hn : clookup id b.cursors = none)
    (hid : id < b.next_cursor_id) :
    clookup id b'.cursors = none ∧ id < b'.next_cursor_id := by
  cases hs with
  | send_fast h =>
    obtain ⟨_, _, _, hb', _⟩ := send_enter_sent_spec h
    subst hb'
    exact ⟨hn, hid⟩
  | send_wake h =>
    obtain ⟨_, _, hb', _⟩ := send_resume_ok_spec h
    subst hb'
    exact ⟨hn, hid⟩
  | recv_first h =>
    exact recv_body_lookup_aux (recv_ready_got_recv_body h).2 hn hid
  | recv_wake h =>
    exact recv_body_lookup_aux (recv_resume_got_recv_body h).2 hn hid
  | try_recv_ok h =>
    exact recv_body_lookup_aux (try_recv_ok_recv_body h).2 hn hid
  | cork_step => exact ⟨hn, hid⟩
  | add_sender_step => exact ⟨hn, hid⟩
  | sender_drop_step hpos =>
    rcases sender_drop_spec b with ⟨_, heq⟩ | ⟨_, heq⟩ <;> rw [heq] <;> exact ⟨hn, hid⟩
  | new_receiver_step h =>
    obtain ⟨_, _, hb'⟩ := new_receiver_ok_spec h
    subst hb'
    refine ⟨?_, by show id < b.next_cursor_id + 1; omega⟩
    show clookup id (cinsert b.next_cursor_id b.offset b.cursors) = none
    rw [clookup_cinsert_ne _ _ (by omega)]
    exact hn
  | drop_receiver_step h =>
    obtain ⟨_, hb', _⟩ := drop_receiver_ok_spec h
    subst hb'
    exact ⟨clookup_none_cremove hn, hid⟩

theorem btrace_lookup_none {T : Type} {b bf : Buffer T} {es : List (ChEvent T)} {id : Nat}
    (ht : BTrace b es bf) (hn : clookup id b.cursors = none)
    (hid : id < b.next_cursor_id) : clookup id bf.cursors = none := by
  induction ht with
  | nil => exact hn
  | cons hs ht ih =>
    obtain ⟨hn', hid'⟩ := bstep_lookup_none hs hn hid
    exact ih hn' hid'

theorem recv_body_cursor_mono_aux {T : Type} {b b' : Buffer T} {j id c : Nat} {v : T}
    {ns : List Notif} (hb : b.recv_body j = some (v, b', ns))
    (hc : clookup id b.cursors = some c) (hid : id < b.next_cursor_id) :
    id < b'.next_cursor_id ∧
      ∃ c', clookup id b'.cursors = some c' ∧ c ≤ c' := by
  obtain ⟨cj, hcj, _, hnext, _, _, _, _, hcur, _⟩ := recv_body_spec hb
  refine ⟨by rw [hnext]; exact hid, ?_⟩
  by_cases hij : id = j
  · subst hij
    rw [hc] at hcj
    injection hcj with hcc
    subst hcc
    exact ⟨c + 1, by rw [hcur]; exact clookup_cinsert_self _ _ _, by omega⟩
  · exact ⟨c, by rw [hcur, clookup_cinsert_ne _ _ hij]; exact hc, le_refl c⟩

theorem bstep_cursor_mono {T : Type} {b b' : Buffer T} {e : ChEvent T} {id c : Nat}
    (hs : BStep b e b') (hnd : (b.cursors.map Prod.fst).Nodup)
    (hc : clookup id b.cursors = some c) (hid : id < b.next_cursor_id) :
    id < b'.next_cursor_id ∧
      (clookup id b'.cursors = none ∨
        ∃ c', clookup id b'.cursors = some c' ∧ c ≤ c') := by
  cases hs with
  | send_fast h =>
    obtain ⟨_, _, _, hb', _⟩ := send_enter_sent_spec h
    subst hb'
    exact ⟨hid, Or.inr ⟨c, hc, le_refl c⟩⟩
  | send_wake h =>
    obtain ⟨_, _, hb', _⟩ := send_resume_ok_spec h
    subst hb'
    exact ⟨hid, Or.inr ⟨c, hc, le_refl c⟩⟩
  | recv_first h =>
    obtain ⟨h1, h2⟩ := recv_body_cursor_mono_aux (recv_ready_got_recv_body h).2 hc hid
    exact ⟨h1, Or.inr h2⟩
  | recv_wake h =>
    obtain ⟨h1, h2⟩ := recv_body_cursor_mono_aux (recv_resume_got_recv_body h).2 hc hid
    exact ⟨h1, Or.inr h2⟩
  | try_recv_ok h =>
    obtain ⟨h1, h2⟩ := recv_body_cursor_mono_aux (try_recv_ok_recv_body h).2 hc hid
    exact ⟨h1, Or.inr h2⟩
  | cork_step => exact ⟨hid, Or.inr ⟨c, hc, le_refl c⟩⟩
  | add_sender_step => exact ⟨hid, Or.inr ⟨c, hc, le_refl c⟩⟩
  | sender_drop_step hpos =>
    rcases sender_drop_spec b with ⟨_, heq⟩ | ⟨_, heq⟩ <;> rw [heq] <;>
      exact ⟨hid, Or.inr ⟨c, hc, le_refl c⟩⟩
  | new_receiver_step h =>
    obtain ⟨_, _, hb'⟩ := new_receiver_ok_spec h
    subst hb'
    refine ⟨by show id < b.next_cursor_id + 1; omega, Or.inr ⟨c, ?_, le_refl c⟩⟩
    show clookup id (cinsert b.next_cursor_id b.offset b.cursors) = some c
    rw [clookup_cinsert_ne _ _ (by omega)]
    exact hc
  | drop_receiver_step h =>
    rename_i j ns0
    obtain ⟨_, hb', _⟩ := drop_receiver_ok_spec h
    subst hb'
    by_cases hij : id = j
    · subst hij
      exact ⟨hid, Or.inl (clookup_cremove_self hnd)⟩
    · refine ⟨hid, Or.inr ⟨c, ?_, le_refl c⟩⟩
      show clookup id (cremove j b.cursors) = some c
      rw [clookup_cremove_ne hij]
      exact hc

theorem btrace_cursor_mono {T : Type} {b bf : Buffer T} {es : List (ChEvent T)}
    {log : List T} {id c cf : Nat}
    (ht : BTrace b es bf) (hm : MidInv b log)
    (hc : clookup id b.cursors = some c) (hid : id < b.next_cursor_id)
    (hcf : clookup id bf.cursors = some cf) : c ≤ cf := by
  induction ht generalizing log c with
  | nil =>
    rw [hc] at hcf
    injection hcf with h
    omega
  | cons hs ht ih =>
    obtain ⟨hid', hd⟩ := bstep_cursor_mono hs hm.csr_nodup hc hid
    rcases hd with hnone | ⟨c', hc', hcc⟩
    · rw [btrace_lookup_none ht hnone hid'] at hcf
      exact Option.noConfusion hcf
    · exact le_trans hcc (ih (bstep_mid hs hm) hc' hid' hcf)

theorem btrace_recv_take {T : Type} {b bf : Buffer T} {es : List (ChEvent T)}
    {log : List T} {id c cf : Nat}
    (ht : BTrace b es bf) (hm : MidInv b log)
    (hc : clookup id b.cursors = some c) (hid : id < b.next_cursor_id)
    (hcf : clookup id bf.cursors = some cf) :
    recvOf id es = ((log ++ sentOf es).take cf).drop c := by
  induction ht generalizing log c with
  | nil =>
    rw [hc] at hcf
    injection hcf with hccf
    subst hccf
    simp only [recvOf, sentOf, List.append_nil]
    symm
    apply List.drop_eq_nil_of_le
    simp [List.length_take]
  | cons hs ht ih =>
    rename_i b0 b1 b2 e0 es0
    cases hs with
    | send_fast h =>
      obtain ⟨_, _, _, hb', _⟩ := send_enter_sent_spec h
      have hmid := bstep_mid (BStep.send_fast h) hm
      subst hb'
      have := ih hmid hc hid hcf
      simpa only [recvOf, sentOf, sentE, List.append_assoc] using this
    | send_wake h =>
      obtain ⟨_, _, hb', _⟩ := send_resume_ok_spec h
      have hmid := bstep_mid (BStep.send_wake h) hm
      subst hb'
      have := ih hmid hc hid hcf
      simpa only [recvOf, sentOf, sentE, List.append_assoc] using this
    | recv_first h =>
      rename_i j v ns0
      have hb := (recv_ready_got_recv_body h).2
      obtain ⟨hminv, cj, hcj, hlogv, hclen, hcur, hnext, _, _, _, _⟩ := recv_body_mid hb hm
      by_cases hij : j = id
      · subst hij
        rw [hc] at hcj
        injection hcj with hcc
        subst hcc
        have hc' : clookup j b1.cursors = some (c + 1) := by
          rw [hcur]; exact clookup_cinsert_self _ _ _
        have hid' : j < b1.next_cursor_id := by rw [hnext]; exact hid
        have hsucc : c + 1 ≤ cf := btrace_cursor_mono ht hminv hc' hid' hcf
        have ihh := ih hminv hc' hid' hcf
        simp only [recvOf, if_pos rfl, sentOf, sentE, List.nil_append]
        have hLlen : c < (log ++ sentOf es0).length := by
          simp only [List.length_append]; omega
        have hLv : (log ++ sentOf es0)[c]? = some v := by
          rw [List.getElem?_append, if_pos hclen]; exact hlogv
        have htake : c < ((log ++ sentOf es0).take cf).length := by
          simp only [List.length_take]; omega
        have hgv : (log ++ sentOf es0)[c] = v := by
          have hg := List.getElem?_eq_getElem hLlen
          rw [hLv] at hg
          exact ((Option.some.injEq _ _).mp hg).symm
        rw [List.drop_eq_getElem_cons htake, ihh,
          List.getElem_take (log ++ sentOf es0) (j := cf) (i := c) (h := htake), hgv]
        simp
      · have hne : id ≠ j := fun hh => hij hh.symm
        have hc' : clookup id b1.cursors = some c := by
          rw [hcur, clookup_cinsert_ne _ _ hne]; exact hc
        have hid' : id < b1.next_cursor_id := by rw [hnext]; exact hid
        have := ih hminv hc' hid' hcf
        simpa only [recvOf, if_neg hij, sentOf, sentE, List.nil_append] using this
    | recv_wake h =>
      rename_i j v ns0
      have hb := (recv_resume_got_recv_body h).2
      obtain ⟨hminv, cj, hcj, hlogv, hclen, hcur, hnext, _, _, _, _⟩ := recv_body_mid hb hm
      by_cases hij : j = id
      · subst hij
        rw [hc] at hcj
        injection hcj with hcc
        subst hcc
        have hc' : clookup j b1.cursors = some (c + 1) := by
          rw [hcur]; exact clookup_cinsert_self _ _ _
        have hid' : j < b1.next_cursor_id := by rw [hnext]; exact hid
        have hsucc : c + 1 ≤ cf := btrace_cursor_mono ht hminv hc' hid' hcf
        have ihh := ih hminv hc' hid' hcf
        simp only [recvOf, if_pos rfl, sentOf, sentE, List.nil_append]
        have hLlen : c < (log ++ sentOf es0).length := by
          simp only [List.length_append]; omega
        have hLv : (log ++ sentOf es0)[c]? = some v := by
          rw [List.getElem?_append, if_pos hclen]; exact hlogv
        have htake : c < ((log ++ sentOf es0).take cf).length := by
          simp only [List.length_take]; omega
        have hgv : (log ++ sentOf es0)[c] = v := by
          have hg := List.getElem?_eq_getElem hLlen
          rw [hLv] at hg
          exact ((Option.some.injEq _ _).mp hg).symm
        rw [List.drop_eq_getElem_cons htake, ihh,
          List.getElem_take (log ++ sentOf es0) (j := cf) (i := c) (h := htake), hgv]
        simp
      · have hne : id ≠ j := fun hh => hij hh.symm
        have hc' : clookup id b1.cursors = some c := by
          rw [hcur, clookup_cinsert_ne _ _ hne]; exact hc
        have hid' : id < b1.next_cursor_id := by rw [hnext]; exact hid
        have := ih hminv hc' hid' hcf
        simpa only [recvOf, if_neg hij, sentOf, sentE, List.nil_append] using this
    | try_recv_ok h =>
      rename_i j v ns0
      have hb := (try_recv_ok_recv_body h).2
      obtain ⟨hminv, cj, hcj, hlogv, hclen, hcur, hnext, _, _, _, _⟩ := recv_body_mid hb hm
      by_cases hij : j = id
      · subst hij
        rw [hc] at hcj
        injection hcj with hcc
        subst hcc
        have hc' : clookup j b1.cursors = some (c + 1) := by
          rw [hcur]; exact clookup_cinsert_self _ _ _
        have hid' : j < b1.next_cursor_id := by rw [hnext]; exact hid
        have hsucc : c + 1 ≤ cf := btrace_cursor_mono ht hminv hc' hid' hcf
        have ihh := ih hminv hc' hid' hcf
        simp only [recvOf, if_pos rfl, sentOf, sentE, List.nil_append]
        have hLlen : c < (log ++ sentOf es0).length := by
          simp only [List.length_append]; omega
        have hLv : (log ++ sentOf es0)[c]? = some v := by
          rw [List.getElem?_append, if_pos hclen]; exact hlogv
        have htake : c < ((log ++ sentOf es0).take cf).length := by
          simp only [List.length_take]; omega
        have hgv : (log ++ sentOf es0)[c] = v := by
          have hg := List.getElem?_eq_getElem hLlen
          rw [hLv] at hg
          exact ((Option.some.injEq _ _).mp hg).symm
        rw [List.drop_eq_getElem_cons htake, ihh,
          List.getElem_take (log ++ sentOf es0) (j := cf) (i := c) (h := htake), hgv]
        simp
      · have hne : id ≠ j := fun hh => hij hh.symm
        have hc' : clookup id b1.cursors = some c := by
          rw [hcur, clookup_cinsert_ne _ _ hne]; exact hc
        have hid' : id < b1.next_cursor_id := by rw [hnext]; exact hid
        have := ih hminv hc' hid' hcf
        simpa only [recvOf, if_neg hij, sentOf, sentE, List.nil_append] using this
    | cork_step =>
      have hmid : MidInv (b0.cork).1 log := by
        simpa only [sentE, List.append_nil] using bstep_mid (BStep.cork_step (b := b0)) hm
      have := ih hmid hc hid hcf
      simpa only [recvOf, sentOf, sentE, List.nil_append] using this
    | add_sender_step =>
      have hmid : MidInv b0.add_sender log := by
        simpa only [sentE, List.append_nil] using bstep_mid (BStep.add_sender_step (b := b0)) hm
      have := ih hmid hc hid hcf
      simpa only [recvOf, sentOf, sentE, List.nil_append] using this
    | sender_drop_step hpos =>
      have hmid : MidInv (Sender.drop b0).1 log := by
        simpa only [sentE, List.append_nil] using bstep_mid (BStep.sender_drop_step hpos) hm
      have hc' : clookup id (Sender.drop b0).1.cursors = some c := by
        rcases sender_drop_spec b0 with ⟨_, heq⟩ | ⟨_, heq⟩ <;> rw [heq] <;> exact hc
      have hid' : id < (Sender.drop b0).1.next_cursor_id := by
        rcases sender_drop_spec b0 with ⟨_, heq⟩ | ⟨_, heq⟩ <;> rw [heq] <;> exact hid
      have := ih hmid hc' hid' hcf
      simpa only [recvOf, sentOf, sentE, List.nil_append] using this
    | new_receiver_step h =>
      obtain ⟨_, _, hb'⟩ := new_receiver_ok_spec h
      have hmid : MidInv b1 log := by
        simpa only [sentE, List.append_nil] using bstep_mid (BStep.new_receiver_step h) hm
      subst hb'
      have hc' : clookup id (cinsert b0.next_cursor_id b0.offset b0.cursors) = some c := by
        rw [clookup_cinsert_ne _ _ (by omega)]
        exact hc
      have hid' : id < b0.next_cursor_id + 1 := by omega
      have := ih hmid hc' hid' hcf
      simpa only [recvOf, sentOf, sentE, List.nil_append] using this
    | drop_receiver_step h =>
      rename_i j ns0
      obtain ⟨_, hb', _⟩ := drop_receiver_ok_spec h
      have hmid : MidInv b1 log := by
        simpa only [sentE, List.append_nil] using bstep_mid (BStep.drop_receiver_step h) hm
      subst hb'
      by_cases hij : id = j
      · subst hij
        have hn' : clookup id (cremove id b0.cursors) = none :=
          clookup_cremove_self hm.csr_nodup
        have := btrace_lookup_none ht hn' hid
        rw [this] at hcf
        exact Option.noConfusion hcf
      · have hc' : clookup id (cremove j b0.cursors) = some c := by
          rw [clookup_cremove_ne hij]
          exact hc
        have := ih hmid hc' hid hcf
        simpa only [recvOf, sentOf, sentE, List.nil_append] using this

/-! Claim theorems. -/

/-- C1: Broadcast without loss.  For every execution of the buffer (any
interleaving of sender, receiver and lifecycle transitions), if the buffer
starts empty at offset 0 with every registered cursor at 0 (receivers
registered before the first send), then each such receiver's sequence of
received values is exactly the prefix of the sent sequence up to its final
cursor — in particular a receiver whose cursor reaches the number of sent
values has received exactly `v₁..vₙ`, in order. -/
theorem C1_broadcast_no_loss {T : Type} {b0 bf : Buffer T} {es : List (ChEvent T)}
    (ht : BTrace b0 es bf)
    (hdata : b0.data = []) (hoff : b0.offset = 0)
    (hcs : ∀ p ∈ b0.cursors, p.2 = 0)
    (hfresh : ∀ p ∈ b0.cursors, p.1 < b0.next_cursor_id)
    (hnd : (b0.cursors.map Prod.fst).Nodup)
    {id cf : Nat} (hc0 : clookup id b0.cursors = some 0)
    (hcf : clookup id bf.cursors = some cf) :
    recvOf id es = (sentOf es).take cf ∧ cf ≤ (sentOf es).length ∧
      (cf = (sentOf es).length → recvOf id es = sentOf es) := by
  have hm : MidInv b0 [] :=
    { data_eq := by rw [hdata, List.drop_nil]
      len_eq := by rw [hoff, hdata]; rfl
      csr_lb := by intro p hp; rw [hoff]; omega
      csr_ub := by intro p hp; rw [hcs p hp]; rfl
      csr_fresh := hfresh
      csr_nodup := hnd }
  have hid : id < b0.next_cursor_id := hfresh _ (clookup_mem hc0)
  have hmain := btrace_recv_take ht hm hc0 hid hcf
  simp only [List.nil_append, List.drop_zero] at hmain
  have hub : cf ≤ (sentOf es).length := by
    have hmf := btrace_mid ht hm
    have := hmf.csr_ub _ (clookup_mem hcf)
    simpa using this
  refine ⟨hmain, hub, fun hall => ?_⟩
  rw [hmain, hall, List.take_length]

/-- C1 witness: a concrete two-step execution (send 5 then receive it) of
a channel with bound 1 in which receiver 0 receives exactly the sent
sequence. -/
theorem C1_broadcast_no_loss_witness :
    recvOf 0 [ChEvent.sent (5 : Nat), ChEvent.received 0 5] =
      (sentOf [ChEvent.sent (5 : Nat), ChEvent.received 0 5]).take 1 := by
  have h1 : BStep (channelInit Nat 1) (ChEvent.sent 5)
      { data := [5], offset := 0, cursors := [(0, 0)], next_cursor_id := 1,
        corked := false, sender_count := 1, poisoned := false, bound := 1 } :=
    @BStep.send_fast Nat (channelInit Nat 1)
      { data := [5], offset := 0, cursors := [(0, 0)], next_cursor_id := 1,
        corked := false, sender_count := 1, poisoned := false, bound := 1 }
      5 [Notif.all Cv.onNewData] (by decide)
  have h2 : BStep
      { data := [5], offset := 0, cursors := [(0, 0)], next_cursor_id := 1,
        corked := false, sender_count := 1, poisoned := false, bound := 1 }
      (ChEvent.received 0 5)
      { data := [], offset := 1, cursors := [(0, 1)], next_cursor_id := 1,
        corked := false, sender_count := 1, poisoned := false, bound := 1 } :=
    @BStep.recv_first Nat
      { data := [5], offset := 0, cursors := [(0, 0)], next_cursor_id := 1,
        corked := false, sender_count := 1, poisoned := false, bound := 1 }
      { data := [], offset := 1, cursors := [(0, 1)], next_cursor_id := 1,
        corked := false, sender_count := 1, poisoned := false, bound := 1 }
      0 5 [Notif.one Cv.onDataConsumed] (by decide)
  have ht := BTrace.cons h1 (BTrace.cons h2 BTrace.nil)
  exact (C1_broadcast_no_loss ht (by decide) (by decide) (by decide) (by decide)
    (by decide) (by decide) (by decide)).1

/-- C2 (refutation — code bug): a state with `len(ring) > bound` is
reachable.  With bound 1 and two senders, the first send fills the ring; a
second sender blocks in `send` waiting on `on_data_consumed`; on wake
(spurious wakeup, or a race in which another producer refills the slot
first) the source pushes unconditionally without re-checking
`data.len() < bound`, so the ring grows to length 2 > bound 1. -/
theorem C2_bound_violation_reachable :
    ∃ (es : List (ChEvent Nat)) (bf : Buffer Nat),
      BTrace (channelInit Nat 1) es bf ∧ bf.bound < bf.data.length := by
  have s1 : BStep (channelInit Nat 1) ChEvent.tau ((channelInit Nat 1).add_sender) :=
    BStep.add_sender_step
  have s2 : BStep ((channelInit Nat 1).add_sender) (ChEvent.sent 7)
      { data := [7], offset := 0, cursors := [(0, 0)], next_cursor_id := 1,
        corked := false, sender_count := 2, poisoned := false, bound := 1 } :=
    @BStep.send_fast Nat ((channelInit Nat 1).add_sender)
      { data := [7], offset := 0, cursors := [(0, 0)], next_cursor_id := 1,
        corked := false, sender_count := 2, poisoned := false, bound := 1 }
      7 [Notif.all Cv.onNewData] (by decide)
  have s3 : BStep
      { data := [7], offset := 0, cursors := [(0, 0)], next_cursor_id := 1,
        corked := false, sender_count := 2, poisoned := false, bound := 1 }
      (ChEvent.sent 8)
      { data := [7, 8], offset := 0, cursors := [(0, 0)], next_cursor_id := 1,
        corked := false, sender_count := 2, poisoned := false, bound := 1 } :=
    @BStep.send_wake Nat
      { data := [7], offset := 0, cursors := [(0, 0)], next_cursor_id := 1,
        corked := false, sender_count := 2, poisoned := false, bound := 1 }
      { data := [7, 8], offset := 0, cursors := [(0, 0)], next_cursor_id := 1,
        corked := false, sender_count := 2, poisoned := false, bound := 1 }
      8 [Notif.all Cv.onNewData] rfl
  exact ⟨_, _, BTrace.cons s1 (BTrace.cons s2 (BTrace.cons s3 BTrace.nil)), by decide⟩

/-- C3 (refutation — code bug): a reachable state in which the wake path
of `recv` panics.  Two cursors share a buffer of bound 2; cursor 1 has
consumed both items while cursor 0 pins the window, so the ring is
non-empty although cursor 1 is outside it.  A handle waiting on cursor 1
that wakes (a sibling SharedReceiver raced ahead, or a spurious wakeup)
finds the ring non-empty, breaks out of the loop without re-checking that
its cursor is inside the window, and `data.get(cursor - offset)` panics at
`expect("Error in cursor arithmetic")`. -/
theorem C3_recv_wake_panics :
    ∃ (es : List (ChEvent Nat)) (bf : Buffer Nat),
      BTrace (channelInit Nat 2) es bf ∧
      bf.corked = false ∧ bf.data ≠ [] ∧
      bf.recv_resume 1 = WakeOutcome.panicked := by
  have s1 : BStep (channelInit Nat 2) ChEvent.tau
      { data := [], offset := 0, cursors := [(0, 0), (1, 0)], next_cursor_id := 2,
        corked := false, sender_count := 1, poisoned := false, bound := 2 } :=
    @BStep.new_receiver_step Nat (channelInit Nat 2)
      { data := [], offset := 0, cursors := [(0, 0), (1, 0)], next_cursor_id := 2,
        corked := false, sender_count := 1, poisoned := false, bound := 2 }
      1 rfl
  have s2 : BStep
      { data := [], offset := 0, cursors := [(0, 0), (1, 0)], next_cursor_id := 2,
        corked := false, sender_count := 1, poisoned := false, bound := 2 }
      (ChEvent.sent 10)
      { data := [10], offset := 0, cursors := [(0, 0), (1, 0)], next_cursor_id := 2,
        corked := false, sender_count := 1, poisoned := false, bound := 2 } :=
    @BStep.send_fast Nat
      { data := [], offset := 0, cursors := [(0, 0), (1, 0)], next_cursor_id := 2,
        corked := false, sender_count := 1, poisoned := false, bound := 2 }
      { data := [10], offset := 0, cursors := [(0, 0), (1, 0)], next_cursor_id := 2,
        corked := false, sender_count := 1, poisoned := false, bound := 2 }
      10 [Notif.all Cv.onNewData] (by decide)
  have s3 : BStep
      { data := [10], offset := 0, cursors := [(0, 0), (1, 0)], next_cursor_id := 2,
        corked := false, sender_count := 1, poisoned := false, bound := 2 }
      (ChEvent.sent 20)
      { data := [10, 20], offset := 0, cursors := [(0, 0), (1, 0)], next_cursor_id := 2,
        corked := false, sender_count := 1, poisoned := false, bound := 2 } :=
    @BStep.send_fast Nat
      { data := [10], offset := 0, cursors := [(0, 0), (1, 0)], next_cursor_id := 2,
        corked := false, sender_count := 1, poisoned := false, bound := 2 }
      { data := [10, 20], offset := 0, cursors := [(0, 0), (1, 0)], next_cursor_id := 2,
        corked := false, sender_count := 1, poisoned := false, bound := 2 }
      20 [Notif.all Cv.onNewData] (by decide)
  have s4 : BStep
      { data := [10, 20], offset := 0, cursors := [(0, 0), (1, 0)], next_cursor_id := 2,
        corked := false, sender_count := 1, poisoned := false, bound := 2 }
      (ChEvent.received 1 10)
      { data := [10, 20], offset := 0, cursors := [(0, 0), (1, 1)], next_cursor_id := 2,
        corked := false, sender_count := 1, poisoned := false, bound := 2 } :=
    @BStep.recv_first Nat
      { data := [10, 20], offset := 0, cursors := [(0, 0), (1, 0)], next_cursor_id := 2,
        corked := false, sender_count := 1, poisoned := false, bound := 2 }
      { data := [10, 20], offset := 0, cursors := [(0, 0), (1, 1)], next_cursor_id := 2,
        corked := false, sender_count := 1, poisoned := false, bound := 2 }
      1 10 [] (by decide)
  have s5 : BStep
      { data := [10, 20], offset := 0, cursors := [(0, 0), (1, 1)], next_cursor_id := 2,
        corked := false, sender_count := 1, poisoned := false, bound := 2 }
      (ChEvent.received 1 20)
      { data := [10, 20], offset := 0, cursors := [(0, 0), (1, 2)], next_cursor_id := 2,
        corked := false, sender_count := 1, poisoned := false, bound := 2 } :=
    @BStep.recv_first Nat
      { data := [10, 20], offset := 0, cursors := [(0, 0), (1, 1)], next_cursor_id := 2,
        corked := false, sender_count := 1, poisoned := false, bound := 2 }
      { data := [10, 20], offset := 0, cursors := [(0, 0), (1, 2)], next_cursor_id := 2,
        corked := false, sender_count := 1, poisoned := false, bound := 2 }
      1 20 [] (by decide)
  exact ⟨_, _,
    BTrace.cons s1 (BTrace.cons s2 (BTrace.cons s3 (BTrace.cons s4
      (BTrace.cons s5 BTrace.nil)))),
    by decide, by decide, by decide⟩

/-- C5 (refutation — code bug): a reachable state with the ring full
(`len(ring) = bound = 1`), cursor 0 the sole holder of the offset and a
faster cursor 1 past it; `drop_receiver(0)` frees a slot that a blocked
producer could use, but the source emits no notification at all on
`on_data_consumed` (the notification list of the transition is empty), so
a producer blocked in `send` is never woken. -/
theorem C5_drop_receiver_no_signal :
    ∃ (es : List (ChEvent Nat)) (bf bf' : Buffer Nat),
      BTrace (channelInit Nat 1) es bf ∧
      bf.data.length = bf.bound ∧
      clookup 0 bf.cursors = some bf.offset ∧
      (∀ p ∈ bf.cursors, p.1 ≠ 0 → bf.offset < p.2) ∧
      bf.drop_receiver 0 = (.ok (), bf', ([] : List Notif)) := by
  have s1 : BStep (channelInit Nat 1) ChEvent.tau
      { data := [], offset := 0, cursors := [(0, 0), (1, 0)], next_cursor_id := 2,
        corked := false, sender_count := 1, poisoned := false, bound := 1 } :=
    @BStep.new_receiver_step Nat (channelInit Nat 1)
      { data := [], offset := 0, cursors := [(0, 0), (1, 0)], next_cursor_id := 2,
        corked := false, sender_count := 1, poisoned := false, bound := 1 }
      1 rfl
  have s2 : BStep
      { data := [], offset := 0, cursors := [(0, 0), (1, 0)], next_cursor_id := 2,
        corked := false, sender_count := 1, poisoned := false, bound := 1 }
      (ChEvent.sent 9)
      { data := [9], offset := 0, cursors := [(0, 0), (1, 0)], next_cursor_id := 2,
        corked := false, sender_count := 1, poisoned := false, bound := 1 } :=
    @BStep.send_fast Nat
      { data := [], offset := 0, cursors := [(0, 0), (1, 0)], next_cursor_id := 2,
        corked := false, sender_count := 1, poisoned := false, bound := 1 }
      { data := [9], offset := 0, cursors := [(0, 0), (1, 0)], next_cursor_id := 2,
        corked := false, sender_count := 1, poisoned := false, bound := 1 }
      9 [Notif.all Cv.onNewData] (by decide)
  have s3 : BStep
      { data := [9], offset := 0, cursors := [(0, 0), (1, 0)], next_cursor_id := 2,
        corked := false, sender_count := 1, poisoned := false, bound := 1 }
      (ChEvent.received 1 9)
      { data := [9], offset := 0, cursors := [(0, 0), (1, 1)], next_cursor_id := 2,
        corked := false, sender_count := 1, poisoned := false, bound := 1 } :=
    @BStep.recv_first Nat
      { data := [9], offset := 0, cursors := [(0, 0), (1, 0)], next_cursor_id := 2,
        corked := false, sender_count := 1, poisoned := false, bound := 1 }
      { data := [9], offset := 0, cursors := [(0, 0), (1, 1)], next_cursor_id := 2,
        corked := false, sender_count := 1, poisoned := false, bound := 1 }
      1 9 [] (by decide)
  exact ⟨_, _,
    { data := [9], offset := 0, cursors := [(1, 1)], next_cursor_id := 2,
      corked := false, sender_count := 1, poisoned := false, bound := 1 },
    BTrace.cons s1 (BTrace.cons s2 (BTrace.cons s3 BTrace.nil)),
    by decide, by decide, by decide, rfl⟩

theorem bstep_sender_inv {T : Type} {b b' : Buffer T} {e : ChEvent T}
    (hs : BStep b e b') (h : b.sender_count = 0 → b.corked = true) :
    b'.sender_count = 0 → b'.corked = true := by
  cases hs with
  | send_fast hh =>
    obtain ⟨_, _, _, hb', _⟩ := send_enter_sent_spec hh
    subst hb'
    exact h
  | send_wake hh =>
    obtain ⟨_, _, hb', _⟩ := send_resume_ok_spec hh
    subst hb'
    exact h
  | recv_first hh =>
    obtain ⟨c, _, _, _, hck, hsc, _, _, _, _⟩ :=
      recv_body_spec (recv_ready_got_recv_body hh).2
    intro h0
    rw [hsc] at h0
    rw [hck]
    exact h h0
  | recv_wake hh =>
    obtain ⟨c, _, _, _, hck, hsc, _, _, _, _⟩ :=
      recv_body_spec (recv_resume_got_recv_body hh).2
    intro h0
    rw [hsc] at h0
    rw [hck]
    exact h h0
  | try_recv_ok hh =>
    obtain ⟨c, _, _, _, hck, hsc, _, _, _, _⟩ :=
      recv_body_spec (try_recv_ok_recv_body hh).2
    intro h0
    rw [hsc] at h0
    rw [hck]
    exact h h0
  | cork_step => intro _; rfl
  | add_sender_step =>
    intro h0
    exact absurd h0 (Nat.succ_ne_zero _)
  | sender_drop_step hpos =>
    rcases sender_drop_spec b with ⟨hz, heq⟩ | ⟨hz, heq⟩ <;> rw [heq]
    · intro _; rfl
    · intro h0; exact absurd h0 hz
  | new_receiver_step hh =>
    obtain ⟨_, _, hb'⟩ := new_receiver_ok_spec hh
    subst hb'
    exact h
  | drop_receiver_step hh =>
    obtain ⟨_, hb', _⟩ := drop_receiver_ok_spec hh
    subst hb'
    exact h

theorem btrace_sender_inv {T : Type} {b bf : Buffer T} {es : List (ChEvent T)}
    (ht : BTrace b es bf) (h : b.sender_count = 0 → b.corked = true) :
    bf.sender_count = 0 → bf.corked = true := by
  induction ht with
  | nil => exact h
  | cons hs ht ih => exact ih (bstep_sender_inv hs h)

/-- C6 counterexample: the state produced by `Buffer::new` itself has
`sender_count = 0` and `corked = false`, so the claimed invariant fails in
that state. -/
theorem C6_new_buffer_counterexample :
    ¬ ((Buffer.new Nat 2).sender_count = 0 → (Buffer.new Nat 2).corked = true) := by
  decide

/-- C6 (amended): in every state reachable from a state satisfying
`sender_count = 0 → corked` (such as the factory-initialized channel,
which registers one sender), the implication `sender_count = 0 → corked`
holds; destroying the last live Sender corks the buffer; and once corked,
a receiver that has drained its cursor observes `IsCorked` from
`try_recv`. -/
theorem C6_last_sender_drop_corks {T : Type} {b0 bf : Buffer T} {es : List (ChEvent T)}
    (ht : BTrace b0 es bf) (h0 : b0.sender_count = 0 → b0.corked = true) :
    (bf.sender_count = 0 → bf.corked = true) ∧
    (∀ b : Buffer T, b.sender_count = 1 →
      (Sender.drop b).1.corked = true ∧ (Sender.drop b).1.sender_count = 0) ∧
    (∀ (b : Buffer T) (id c : Nat), b.poisoned = false → b.corked = true →
      clookup id b.cursors = some c → b.data.length + b.offset ≤ c →
      b.try_recv id = some (.error .IsCorked, b, [])) := by
  refine ⟨btrace_sender_inv ht h0, ?_, ?_⟩
  · intro b hb1
    rcases sender_drop_spec b with ⟨hz, heq⟩ | ⟨hz, heq⟩
    · rw [heq]
      exact ⟨rfl, by rw [hb1]⟩
    · rw [hb1] at hz
      exact absurd rfl hz
  · intro b id c hp hck hc hcaught
    unfold Buffer.try_recv
    rw [hp]
    simp only [Bool.false_eq_true, if_false]
    rw [hc]
    simp only
    rw [if_pos hcaught, if_pos hck]

/-- C6 witness: dropping the only sender of a concrete channel yields a
corked state in which the invariant holds with `sender_count = 0`. -/
theorem C6_last_sender_drop_corks_witness :
    ({ data := [], offset := 0, cursors := [(0, 0)], next_cursor_id := 1,
       corked := true, sender_count := 0, poisoned := false,
       bound := 1 } : Buffer Nat).corked = true := by
  have s1 : BStep (channelInit Nat 1) ChEvent.tau
      { data := [], offset := 0, cursors := [(0, 0)], next_cursor_id := 1,
        corked := true, sender_count := 0, poisoned := false, bound := 1 } := by
    have := @BStep.sender_drop_step Nat (channelInit Nat 1) (by decide)
    exact this
  exact (C6_last_sender_drop_corks (BTrace.cons s1 BTrace.nil) (by decide)).1 rfl

theorem recv_body_offsetIsMin {T : Type} {b b' : Buffer T} {id : Nat} {v : T}
    {ns : List Notif} (h : b.recv_body id = some (v, b', ns))
    (hmin : offsetIsMin b) : offsetIsMin b' := by
  obtain ⟨c, hc, hg, _, _, _, _, _, hcur, hdis⟩ := recv_body_spec h
  obtain ⟨hlb, p0, hp0, hp0eq⟩ := hmin
  have hclb : b.offset ≤ c := hlb _ (clookup_mem hc)
  rcases hdis with ⟨hd, ho, himpl⟩ | ⟨hco, hd, ho, hall⟩
  · constructor
    · intro p hp'
      rw [ho]
      rw [hcur] at hp'
      rcases mem_cinsert hp' with h' | h'
      · rw [h']; omega
      · exact hlb _ h'
    · by_cases hcoff : c = b.offset
      · obtain ⟨p1, hp1, hp1le⟩ := himpl hcoff
        refine ⟨p1, by rw [hcur]; exact hp1, ?_⟩
        rw [ho]
        have hge : b.offset ≤ p1.2 := by
          rcases mem_cinsert hp1 with h' | h'
          · rw [h']; omega
          · exact hlb _ h'
        omega
      · refine ⟨p0, ?_, by rw [ho]; exact hp0eq⟩
        rw [hcur]
        refine mem_cinsert_keep _ hc hp0 ?_
        intro hpe
        rw [hpe] at hp0eq
        exact hcoff hp0eq
  · constructor
    · intro p hp'
      rw [ho]
      rw [hcur] at hp'
      have := hall p hp'
      omega
    · refine ⟨(id, c + 1), by rw [hcur]; exact self_mem_cinsert _ _ _, ?_⟩
      rw [ho, hco]

/-- C4 counterexample: a concrete execution — two receivers, two sends,
receiver 1 reads both, then receiver 0 (the sole cursor at the offset) is
dropped — reaching a state whose cursor map is non-empty but in which
`offset` is not the minimum of the cursors (`offset = 0`, sole cursor at
2), because `drop_receiver` does not re-establish the window equation. -/
theorem C4_offset_min_counterexample :
    ∃ (es : List (ChEvent Nat)) (bf : Buffer Nat),
      BTrace (channelInit Nat 2) es bf ∧ bf.cursors ≠ [] ∧ ¬ offsetIsMin bf := by
  have s1 : BStep (channelInit Nat 2) ChEvent.tau
      { data := [], offset := 0, cursors := [(0, 0), (1, 0)], next_cursor_id := 2,
        corked := false, sender_count := 1, poisoned := false, bound := 2 } :=
    @BStep.new_receiver_step Nat (channelInit Nat 2)
      { data := [], offset := 0, cursors := [(0, 0), (1, 0)], next_cursor_id := 2,
        corked := false, sender_count := 1, poisoned := false, bound := 2 }
      1 rfl
  have s2 : BStep
      { data := [], offset := 0, cursors := [(0, 0), (1, 0)], next_cursor_id := 2,
        corked := false, sender_count := 1, poisoned := false, bound := 2 }
      (ChEvent.sent 10)
      { data := [10], offset := 0, cursors := [(0, 0), (1, 0)], next_cursor_id := 2,
        corked := false, sender_count := 1, poisoned := false, bound := 2 } :=
    @BStep.send_fast Nat
      { data := [], offset := 0, cursors := [(0, 0), (1, 0)], next_cursor_id := 2,
        corked := false, sender_count := 1, poisoned := false, bound := 2 }
      { data := [10], offset := 0, cursors := [(0, 0), (1, 0)], next_cursor_id := 2,
        corked := false, sender_count := 1, poisoned := false, bound := 2 }
      10 [Notif.all Cv.onNewData] (by decide)
  have s3 : BStep
      { data := [10], offset := 0, cursors := [(0, 0), (1, 0)], next_cursor_id := 2,
        corked := false, sender_count := 1, poisoned := false, bound := 2 }
      (ChEvent.sent 20)
      { data := [10, 20], offset := 0, cursors := [(0, 0), (1, 0)], next_cursor_id := 2,
        corked := false, sender_count := 1, poisoned := false, bound := 2 } :=
    @BStep.send_fast Nat
      { data := [10], offset := 0, cursors := [(0, 0), (1, 0)], next_cursor_id := 2,
        corked := false, sender_count := 1, poisoned := false, bound := 2 }
      { data := [10, 20], offset := 0, cursors := [(0, 0), (1, 0)], next_cursor_id := 2,
        corked := false, sender_count := 1, poisoned := false, bound := 2 }
      20 [Notif.all Cv.onNewData] (by decide)
  have s4 : BStep
      { data := [10, 20], offset := 0, cursors := [(0, 0), (1, 0)], next_cursor_id := 2,
        corked := false, sender_count := 1, poisoned := false, bound := 2 }
      (ChEvent.received 1 10)
      { data := [10, 20], offset := 0, cursors := [(0, 0), (1, 1)], next_cursor_id := 2,
        corked := false, sender_count := 1, poisoned := false, bound := 2 } :=
    @BStep.recv_first Nat
      { data := [10, 20], offset := 0, cursors := [(0, 0), (1, 0)], next_cursor_id := 2,
        corked := false, sender_count := 1, poisoned := false, bound := 2 }
      { data := [10, 20], offset := 0, cursors := [(0, 0), (1, 1)], next_cursor_id := 2,
        corked := false, sender_count := 1, poisoned := false, bound := 2 }
      1 10 [] (by decide)
  have s5 : BStep
      { data := [10, 20], offset := 0, cursors := [(0, 0), (1, 1)], next_cursor_id := 2,
        corked := false, sender_count := 1, poisoned := false, bound := 2 }
      (ChEvent.received 1 20)
      { data := [10, 20], offset := 0, cursors := [(0, 0), (1, 2)], next_cursor_id := 2,
        corked := false, sender_count := 1, poisoned := false, bound := 2 } :=
    @BStep.recv_first Nat
      { data := [10, 20], offset := 0, cursors := [(0, 0), (1, 1)], next_cursor_id := 2,
        corked := false, sender_count := 1, poisoned := false, bound := 2 }
      { data := [10, 20], offset := 0, cursors := [(0, 0), (1, 2)], next_cursor_id := 2,
        corked := false, sender_count := 1, poisoned := false, bound := 2 }
      1 20 [] (by decide)
  have s6 : BStep
      { data := [10, 20], offset := 0, cursors := [(0, 0), (1, 2)], next_cursor_id := 2,
        corked := false, sender_count := 1, poisoned := false, bound := 2 }
      ChEvent.tau
      { data := [10, 20], offset := 0, cursors := [(1, 2)], next_cursor_id := 2,
        corked := false, sender_count := 1, poisoned := false, bound := 2 } :=
    @BStep.drop_receiver_step Nat
      { data := [10, 20], offset := 0, cursors := [(0, 0), (1, 2)], next_cursor_id := 2,
        corked := false, sender_count := 1, poisoned := false, bound := 2 }
      { data := [10, 20], offset := 0, cursors := [(1, 2)], next_cursor_id := 2,
        corked := false, sender_count := 1, poisoned := false, bound := 2 }
      0 [] rfl
  refine ⟨_, _,
    BTrace.cons s1 (BTrace.cons s2 (BTrace.cons s3 (BTrace.cons s4
      (BTrace.cons s5 (BTrace.cons s6 BTrace.nil))))),
    by decide, ?_⟩
  intro hmin
  obtain ⟨_, p, hp, hpe⟩ := hmin
  simp only [List.mem_singleton] at hp
  rw [hp] at hpe
  exact absurd hpe (by decide)

/-- C4 (amended): the window equation `offset = min(cursors)` is
preserved by `try_send`, the send paths, `new_receiver`, `recv_body` (the
shared body of `recv` and `try_recv`) and `try_recv`; `drop_receiver`
preserves only the lower bound `offset ≤ cursor` for the remaining
cursors — it does not re-establish `offset = min` when the sole cursor at
`offset` is removed (see the counterexample). -/
theorem C4_offset_min_amended {T : Type} (b : Buffer T) :
    (∀ (v : T) (r : Except ChannelError (Option T)) (b' : Buffer T) (ns : List Notif),
        b.try_send v = (r, b', ns) → offsetIsMin b → offsetIsMin b') ∧
    (∀ (v : T) (b' : Buffer T) (ns : List Notif),
        b.send_enter v = .sent b' ns → offsetIsMin b → offsetIsMin b') ∧
    (∀ (v : T) (r : Except ChannelError Unit) (b' : Buffer T) (ns : List Notif),
        b.send_resume v = (r, b', ns) → offsetIsMin b → offsetIsMin b') ∧
    (∀ (id : Nat) (b' : Buffer T),
        b.new_receiver = .ok (id, b') →
        (∀ p ∈ b.cursors, b.offset ≤ p.2) → offsetIsMin b') ∧
    (∀ (id : Nat) (v : T) (b' : Buffer T) (ns : List Notif),
        b.recv_body id = some (v, b', ns) → offsetIsMin b → offsetIsMin b') ∧
    (∀ (id : Nat) (r : Except ChannelError (Option T)) (b' : Buffer T) (ns : List Notif),
        b.try_recv id = some (r, b', ns) → offsetIsMin b → offsetIsMin b') ∧
    (∀ (id : Nat) (r : Except ChannelError Unit) (b' : Buffer T) (ns : List Notif),
        b.drop_receiver id = (r, b', ns) →
        (∀ p ∈ b.cursors, b.offset ≤ p.2) →
        ∀ p ∈ b'.cursors, b'.offset ≤ p.2) := by
  refine ⟨?_, ?_, ?_, ?_, ?_, ?_, ?_⟩
  · intro v r b' ns h hmin
    unfold Buffer.try_send at h
    by_cases hck : b.corked
    · rw [if_pos hck] at h
      injection h with h1 h2
      injection h2 with h2 h3
      rw [← h2]
      exact hmin
    · rw [if_neg hck] at h
      by_cases hp : b.poisoned
      · rw [if_pos hp] at h
        injection h with h1 h2
        injection h2 with h2 h3
        rw [← h2]
        exact hmin
      · rw [if_neg hp] at h
        by_cases hlen : b.data.length < b.bound
        · rw [if_pos hlen] at h
          injection h with h1 h2
          injection h2 with h2 h3
          rw [← h2]
          exact ⟨hmin.1, hmin.2⟩
        · rw [if_neg hlen] at h
          injection h with h1 h2
          injection h2 with h2 h3
          rw [← h2]
          exact hmin
  · intro v b' ns h hmin
    obtain ⟨_, _, _, hb', _⟩ := send_enter_sent_spec h
    subst hb'
    exact ⟨hmin.1, hmin.2⟩
  · intro v r b' ns h hmin
    unfold Buffer.send_resume at h
    by_cases hp : b.poisoned
    · rw [if_pos hp] at h
      injection h with h1 h2
      injection h2 with h2 h3
      rw [← h2]
      exact hmin
    · rw [if_neg hp] at h
      by_cases hck : b.corked
      · rw [if_pos hck] at h
        injection h with h1 h2
        injection h2 with h2 h3
        rw [← h2]
        exact hmin
      · rw [if_neg hck] at h
        injection h with h1 h2
        injection h2 with h2 h3
        rw [← h2]
        exact ⟨hmin.1, hmin.2⟩
  · intro id b' h hlb
    obtain ⟨_, hid, hb'⟩ := new_receiver_ok_spec h
    subst hb'
    constructor
    · intro p hp'
      rcases mem_cinsert hp' with h' | h'
      · rw [h']
      · exact hlb _ h'
    · exact ⟨(b.next_cursor_id, b.offset), self_mem_cinsert _ _ _, rfl⟩
  · intro id v b' ns h hmin
    exact recv_body_offsetIsMin h hmin
  · intro id r b' ns h hmin
    unfold Buffer.try_recv at h
    by_cases hp : b.poisoned
    · rw [if_pos hp] at h
      injection h with h1
      injection h1 with h1 h2
      injection h2 with h2 h3
      rw [← h2]
      exact hmin
    · simp only [hp, Bool.false_eq_true, if_false] at h
      cases hc : clookup id b.cursors with
      | none => rw [hc] at h; simp at h
      | some c =>
        rw [hc] at h
        simp only at h
        by_cases hcaught : b.data.length + b.offset ≤ c
        · rw [if_pos hcaught] at h
          by_cases hck : b.corked
          · rw [if_pos hck] at h
            injection h with h1
            injection h1 with h1 h2
            injection h2 with h2 h3
            rw [← h2]
            exact hmin
          · simp only [hck, Bool.false_eq_true, if_false] at h
            injection h with h1
            injection h1 with h1 h2
            injection h2 with h2 h3
            rw [← h2]
            exact hmin
        · rw [if_neg hcaught] at h
          cases hb : b.recv_body id with
          | none => rw [hb] at h; simp at h
          | some p =>
            obtain ⟨w, b'', ns'⟩ := p
            rw [hb] at h
            injection h with h1
            injection h1 with h1 h2
            injection h2 with h2 h3
            rw [← h2]
            exact recv_body_offsetIsMin hb hmin
  · intro id r b' ns h hlb
    unfold Buffer.drop_receiver at h
    by_cases hp : b.poisoned
    · rw [if_pos hp] at h
      injection h with h1 h2
      injection h2 with h2 h3
      rw [← h2]
      exact hlb
    · rw [if_neg hp] at h
      injection h with h1 h2
      injection h2 with h2 h3
      rw [← h2]
      intro p hp'
      exact hlb _ (mem_cremove hp')

/-- C4 witness: the preserved-by-`new_receiver` part applied to a
concrete channel: after registering a second receiver the offset is the
minimum of the cursor values. -/
theorem C4_offset_min_amended_witness :
    offsetIsMin (Buffer.mk [] 0 [(0, 0), (1, 0)] 2 false 1 false 2 : Buffer Nat) := by
  exact (C4_offset_min_amended (channelInit Nat 2)).2.2.2.1 1
    { data := [], offset := 0, cursors := [(0, 0), (1, 0)], next_cursor_id := 2,
      corked := false, sender_count := 1, poisoned := false, bound := 2 }
    rfl (by decide)

theorem recv_body_some {T : Type} {b : Buffer T} {id c : Nat} {v : T}
    (hc : clookup id b.cursors = some c) (hg : b.data[c - b.offset]? = some v) :
    ∃ b' ns, b.recv_body id = some (v, b', ns) := by
  unfold Buffer.recv_body
  simp only [hc, hg]
  by_cases hoff : c = b.offset
  · exact ⟨_, _, by rw [if_pos hoff]⟩
  · exact ⟨_, _, by rw [if_neg hoff]⟩

theorem try_recv_eq_of_recv_body {T : Type} {b b' : Buffer T} {id c : Nat} {v : T}
    {ns : List Notif} (hp : b.poisoned = false)
    (hc : clookup id b.cursors = some c) (hlt : c < b.data.length + b.offset)
    (hb : b.recv_body id = some (v, b', ns)) :
    b.try_recv id = some (.ok (some v), b', ns) := by
  unfold Buffer.try_recv
  simp only [hp, Bool.false_eq_true, if_false, hc]
  rw [if_neg (by omega), hb]

theorem try_recv_caught_corked {T : Type} {b : Buffer T} {id c : Nat}
    (hp : b.poisoned = false) (hck : b.corked = true)
    (hc : clookup id b.cursors = some c) (hcaught : b.data.length + b.offset ≤ c) :
    b.try_recv id = some (.error .IsCorked, b, []) := by
  unfold Buffer.try_recv
  simp only [hp, Bool.false_eq_true, if_false, hc]
  rw [if_pos hcaught, if_pos hck]

theorem try_recv_drain {T : Type} :
    ∀ (r : Nat) (b : Buffer T) (id c : Nat),
      b.poisoned = false → b.corked = true →
      clookup id b.cursors = some c → b.offset ≤ c →
      b.offset + b.data.length = c + r →
      (try_recv_list b id r).1 = b.data.drop (c - b.offset) ∧
      (try_recv_list b id r).2.try_recv id =
        some (.error .IsCorked, (try_recv_list b id r).2, []) := by
  intro r
  induction r with
  | zero =>
    intro b id c hp hck hc hlb hlen
    constructor
    · symm
      apply List.drop_eq_nil_of_le
      omega
    · show b.try_recv id = some (.error .IsCorked, b, [])
      exact try_recv_caught_corked hp hck hc (by omega)
  | succ n ih =>
    intro b id c hp hck hc hlb hlen
    have hlt : c - b.offset < b.data.length := by omega
    obtain ⟨w, hg⟩ : ∃ w, b.data[c - b.offset]? = some w :=
      ⟨_, List.getElem?_eq_getElem hlt⟩
    obtain ⟨b', ns, hbody⟩ := recv_body_some hc hg
    have htr := try_recv_eq_of_recv_body hp hc (by omega) hbody
    obtain ⟨cj, hcj, _, _, hck', hsc', hp', _, hcur, hdis⟩ := recv_body_spec hbody
    rw [hc] at hcj
    injection hcj with hcc
    subst hcc
    have hc' : clookup id b'.cursors = some (c + 1) := by
      rw [hcur]; exact clookup_cinsert_self _ _ _
    have hp'f : b'.poisoned = false := by rw [hp']; exact hp
    have hck'f : b'.corked = true := by rw [hck']; exact hck
    rcases hdis with ⟨hd, ho, _⟩ | ⟨hco, hd, ho, _⟩
    · have hlb' : b'.offset ≤ c + 1 := by rw [ho]; omega
      have hlen' : b'.offset + b'.data.length = (c + 1) + n := by rw [ho, hd]; omega
      have hih := ih b' id (c + 1) hp'f hck'f hc' hlb' hlen' 
      simp only [try_recv_list, htr]
      refine ⟨?_, hih.2⟩
      rw [hih.1, hd, ho]
      rw [List.drop_eq_getElem_cons hlt]
      have hshift : c + 1 - b.offset = (c - b.offset) + 1 := Nat.succ_sub hlb
      rw [hshift]
      obtain ⟨hwlt, hwv⟩ := List.getElem?_eq_some.mp hg
      rw [hwv]
    · subst hco
      have hlen1 : 1 ≤ b.data.length := by omega
      have hlb' : b'.offset ≤ b.offset + 1 := by rw [ho]
      have hlen' : b'.offset + b'.data.length = (b.offset + 1) + n := by
        rw [ho, hd, List.length_tail]; omega
      have hih := ih b' id (b.offset + 1) hp'f hck'f hc' hlb' hlen' 
      simp only [try_recv_list, htr]
      refine ⟨?_, hih.2⟩
      rw [hih.1, hd, ho]
      simp only [Nat.sub_self, Nat.add_sub_cancel_left, List.drop_zero]
      rw [Nat.sub_self] at hg
      obtain ⟨h0, hwv⟩ := List.getElem?_eq_some.mp hg
      rw [← hwv, List.getElem_zero h0, List.head_cons_tail]

/-- C7: cork drain and the meaning of `IsCorked`.  With the buffer corked
and `r = offset + len(ring) - c` items at or after cursor `c`, the next
`r` receives return exactly those items in order and the following
receive returns `IsCorked`; `try_recv` returns `IsCorked` exactly when
corked and caught up and returns `Ok(None)` when not corked and caught
up; `recv` (its non-waiting check) returns `IsCorked` exactly when corked
and caught up; and `send`/`try_send` fail with `IsCorked` whenever the
buffer is corked. -/
theorem C7_cork_drain_iscorked {T : Type} (b : Buffer T) (id c : Nat) (v : T)
    (hp : b.poisoned = false) (hc : clookup id b.cursors = some c)
    (hlb : b.offset ≤ c) (hub : c ≤ b.offset + b.data.length) :
    (b.corked = true →
      (try_recv_list b id (b.offset + b.data.length - c)).1 =
        b.data.drop (c - b.offset) ∧
      (try_recv_list b id (b.offset + b.data.length - c)).2.try_recv id =
        some (.error .IsCorked,
          (try_recv_list b id (b.offset + b.data.length - c)).2, [])) ∧
    ((∃ b2 ns, b.try_recv id = some (.error .IsCorked, b2, ns)) ↔
      (b.corked = true ∧ b.data.length + b.offset ≤ c)) ∧
    (b.corked = false → b.data.length + b.offset ≤ c →
      b.try_recv id = some (.ok none, b, [])) ∧
    (b.recv_ready id = .corkedErr ↔ (b.corked = true ∧ b.data.length + b.offset ≤ c)) ∧
    (b.corked = true →
      b.try_send v = (.error .IsCorked, b, []) ∧
      b.send_enter v = .err .IsCorked ∧
      b.send_resume v = (.error .IsCorked, b, [])) := by
  refine ⟨?_, ?_, ?_, ?_, ?_⟩
  · intro hck
    exact try_recv_drain _ b id c hp hck hc hlb (by omega)
  · constructor
    · rintro ⟨b2, ns, htr⟩
      unfold Buffer.try_recv at htr
      rw [hp] at htr
      simp only [Bool.false_eq_true, if_false] at htr
      rw [hc] at htr
      simp only at htr
      by_cases hcaught : b.data.length + b.offset ≤ c
      · rw [if_pos hcaught] at htr
        by_cases hck : b.corked
        · exact ⟨hck, hcaught⟩
        · simp only [hck, Bool.false_eq_true, if_false] at htr
          injection htr with h1
          injection h1 with h1 h2
          exact absurd h1 (by intro hh; exact Except.noConfusion hh)
      · rw [if_neg hcaught] at htr
        cases hb : b.recv_body id with
        | none => rw [hb] at htr; exact absurd htr (by simp)
        | some p =>
          obtain ⟨w, b'', ns'⟩ := p
          rw [hb] at htr
          injection htr with h1
          injection h1 with h1 h2
          exact absurd h1 (by intro hh; exact Except.noConfusion hh)
    · rintro ⟨hck, hcaught⟩
      exact ⟨b, [], try_recv_caught_corked hp hck hc hcaught⟩
  · intro hck hcaught
    unfold Buffer.try_recv
    rw [hp]
    simp only [Bool.false_eq_true, if_false]
    rw [hc]
    simp only
    rw [if_pos hcaught, hck]
    simp
  · constructor
    · intro hr
      unfold Buffer.recv_ready at hr
      rw [hp] at hr
      simp only [Bool.false_eq_true, if_false] at hr
      rw [hc] at hr
      simp only at hr
      by_cases hcaught : b.data.length + b.offset ≤ c
      · rw [if_pos hcaught] at hr
        by_cases hck : b.corked
        · exact ⟨hck, hcaught⟩
        · simp only [hck, Bool.false_eq_true, if_false] at hr
          exact absurd hr (by intro hh; exact RecvOutcome.noConfusion hh)
      · rw [if_neg hcaught] at hr
        cases hb : b.recv_body id with
        | none =>
          rw [hb] at hr
          exact absurd hr (by intro hh; exact RecvOutcome.noConfusion hh)
        | some p =>
          obtain ⟨w, b'', ns'⟩ := p
          rw [hb] at hr
          exact absurd hr (by intro hh; exact RecvOutcome.noConfusion hh)
    · rintro ⟨hck, hcaught⟩
      unfold Buffer.recv_ready
      rw [hp]
      simp only [Bool.false_eq_true, if_false]
      rw [hc]
      simp only
      rw [if_pos hcaught, if_pos hck]
  · intro hck
    refine ⟨?_, ?_, ?_⟩
    · unfold Buffer.try_send
      rw [if_pos hck]
    · unfold Buffer.send_enter
      rw [if_pos hck]
    · unfold Buffer.send_resume
      rw [hp]
      simp only [Bool.false_eq_true, if_false]
      rw [if_pos hck]

/-- C7 witness: a concrete corked buffer holding `[3, 4]` with its single
cursor at the offset: draining yields exactly `[3, 4]`. -/
theorem C7_cork_drain_iscorked_witness :
    (try_recv_list (Buffer.mk [3, 4] 0 [(0, 0)] 1 true 0 false 2 : Buffer Nat)
      0 2).1 = [3, 4] := by
  have h := (C7_cork_drain_iscorked
      (Buffer.mk [3, 4] 0 [(0, 0)] 1 true 0 false 2 : Buffer Nat)
      0 0 9 rfl rfl (by decide) (by decide)).1 rfl
  simpa using h.1

/-- C8: cloning a `Receiver` allocates a fresh cursor at the buffer's
current `offset` (the oldest retained item), and the S3 scenario holds
concretely: with bound 2, after sending 1 and 2, a clone (rx2, cursor 1)
starts at the offset; rx1 and rx2 each receive 1; send 3 succeeds (the
window slid); rx1 reads 2 then 3 then sees no data; `try_send 4` returns
`Ok(Some 4)` while rx2 still pins the window; rx2 then reads 2 and 3. -/
theorem C8_clone_at_offset :
    (∀ (T : Type) (b : Buffer T) (id : Nat) (b' : Buffer T),
        b.new_receiver = .ok (id, b') → clookup id b'.cursors = some b.offset) ∧
    (let s0 := channelInit Nat 2
     let s1 := afterSend s0 1
     let s2 := afterSend s1 2
     let s3 := afterClone s2
     let s4 := afterRecv s3 0
     let s5 := afterRecv s4 1
     let s6 := afterSend s5 3
     let s7 := afterRecv s6 0
     let s8 := afterRecv s7 0
     let s9 := afterRecv s8 1
     sendRes s0 1 = .ok none ∧
     sendRes s1 2 = .ok none ∧
     clookup 1 s3.cursors = some s2.offset ∧
     tryRecvOut s3 0 = some (.ok (some 1)) ∧
     tryRecvOut s4 1 = some (.ok (some 1)) ∧
     sendRes s5 3 = .ok none ∧
     tryRecvOut s6 0 = some (.ok (some 2)) ∧
     tryRecvOut s7 0 = some (.ok (some 3)) ∧
     tryRecvOut s8 0 = some (.ok none) ∧
     sendRes s8 4 = .ok (some 4) ∧
     tryRecvOut s8 1 = some (.ok (some 2)) ∧
     tryRecvOut s9 1 = some (.ok (some 3))) := by
  refine ⟨?_, rfl, rfl, rfl, rfl, rfl, rfl, rfl, rfl, rfl, rfl, rfl, rfl⟩
  intro T b id b' h
  obtain ⟨_, hid, hb'⟩ := new_receiver_ok_spec h
  subst hb'
  subst hid
  exact clookup_cinsert_self _ _ _

/-- C8 witness: cloning after two sends on a concrete channel places the
new cursor (id 1) at the buffer's offset. -/
theorem C8_clone_at_offset_witness :
    clookup 1 (afterClone (afterSend (afterSend (channelInit Nat 2) 1) 2)).cursors =
      some ((afterSend (afterSend (channelInit Nat 2) 1) 2).offset) := by
  exact C8_clone_at_offset.1 Nat (afterSend (afterSend (channelInit Nat 2) 1) 2) 1
    (afterClone (afterSend (afterSend (channelInit Nat 2) 1) 2)) rfl

/-- C9 counterexample: on a buffer with a poisoned mutex, `Receiver::new`
(which `Clone` for `Receiver` calls) executes
`buffer.new_receiver().unwrap()` — the `unwrap` panics instead of
surfacing `ChannelError::Poisoned` as an error value.  `none` is the
embedding's panic outcome. -/
theorem C9_clone_panics_counterexample :
    Receiver.new (Buffer.mk [] 0 [(0, 0)] 1 false 1 true 1 : Buffer Nat) = none ∧
    (Buffer.mk [] 0 [(0, 0)] 1 false 1 true 1 : Buffer Nat).poisoned = true := by
  exact ⟨rfl, rfl⟩

/-- C9 (amended): when the mutex is poisoned, every `Buffer` method that
returns a `Result` surfaces `Poisoned` (for `send`/`try_send` only when
the buffer is not already corked, because the source checks the cork flag
before locking), and the handle methods pass it through unchanged — but
`Receiver::new` (hence `Clone` for `Receiver`) panics via `unwrap`
(embedded as `none`) instead of returning it, and `Drop` for `Receiver`
discards the error. -/
theorem C9_poison_amended {T : Type} (b : Buffer T) (id : Nat) (v : T)
    (hp : b.poisoned = true) :
    (b.corked = false → b.try_send v = (.error .Poisoned, b, [])) ∧
    (b.corked = false → b.send_enter v = .err .Poisoned) ∧
    b.send_resume v = (.error .Poisoned, b, []) ∧
    b.try_recv id = some (.error .Poisoned, b, []) ∧
    b.recv_ready id = .poisonedErr ∧
    b.recv_resume id = .poisonedErr ∧
    b.len = .error .Poisoned ∧
    b.new_receiver = .error .Poisoned ∧
    b.drop_receiver id = (.error .Poisoned, b, []) ∧
    Receiver.new b = none := by
  refine ⟨?_, ?_, ?_, ?_, ?_, ?_, ?_, ?_, ?_, ?_⟩
  · intro hck
    unfold Buffer.try_send
    rw [hck, hp]
    simp
  · intro hck
    unfold Buffer.send_enter
    rw [hck, hp]
    simp
  · unfold Buffer.send_resume
    rw [hp]
    simp
  · unfold Buffer.try_recv
    rw [hp]
    simp
  · unfold Buffer.recv_ready
    rw [hp]
    simp
  · unfold Buffer.recv_resume
    rw [hp]
    simp
  · unfold Buffer.len
    rw [hp]
    simp
  · unfold Buffer.new_receiver
    rw [hp]
    simp
  · unfold Buffer.drop_receiver
    rw [hp]
    simp
  · unfold Receiver.new Buffer.new_receiver
    rw [hp]
    simp

/-- C9 witness: the amended behaviour at a concrete poisoned buffer:
`try_recv` surfaces `Poisoned` as an error value. -/
theorem C9_poison_amended_witness :
    (Buffer.mk [] 0 [(0, 0)] 1 false 1 true 1 : Buffer Nat).try_recv 0 =
      some (.error .Poisoned,
        (Buffer.mk [] 0 [(0, 0)] 1 false 1 true 1 : Buffer Nat), []) := by
  exact (C9_poison_amended
    (Buffer.mk [] 0 [(0, 0)] 1 false 1 true 1 : Buffer Nat) 0 5 rfl).2.2.2.1

/-- C10: frame property of receives.  A successful `try_recv` (or the
data path of `recv`) advances exactly the calling cursor by one and
leaves every other cursor, `next_cursor_id`, `corked`, `sender_count` and
`bound` unchanged; the ring and `offset` change only when the consumed
position equalled `offset`, and any change pops exactly the front item
and increments `offset` by one; a `try_recv` that returns `Ok(None)` or
an error leaves the state unchanged and emits no notification. -/
theorem C10_recv_frame {T : Type} (b : Buffer T) (id : Nat) :
    (∀ (v : T) (b' : Buffer T) (ns : List Notif),
        b.try_recv id = some (.ok (some v), b', ns) →
        ∃ c, clookup id b.cursors = some c ∧
          clookup id b'.cursors = some (c + 1) ∧
          (∀ j, j ≠ id → clookup j b'.cursors = clookup j b.cursors) ∧
          b'.next_cursor_id = b.next_cursor_id ∧
          b'.corked = b.corked ∧ b'.sender_count = b.sender_count ∧
          b'.poisoned = b.poisoned ∧ b'.bound = b.bound ∧
          (c ≠ b.offset → b'.data = b.data ∧ b'.offset = b.offset) ∧
          ((b'.data = b.data ∧ b'.offset = b.offset) ∨
            (c = b.offset ∧ b'.data = b.data.tail ∧ b'.offset = b.offset + 1))) ∧
    (∀ (b' : Buffer T) (ns : List Notif),
        b.try_recv id = some (.ok none, b', ns) → b' = b ∧ ns = []) ∧
    (∀ (e : ChannelError) (b' : Buffer T) (ns : List Notif),
        b.try_recv id = some (.error e, b', ns) → b' = b ∧ ns = []) ∧
    (∀ (v : T) (b' : Buffer T) (ns : List Notif),
        b.recv_ready id = .got v b' ns →
        ∃ c, clookup id b.cursors = some c ∧
          clookup id b'.cursors = some (c + 1) ∧
          (∀ j, j ≠ id → clookup j b'.cursors = clookup j b.cursors)) := by
  have frame :
      ∀ (v : T) (b' : Buffer T) (ns : List Notif),
        b.recv_body id = some (v, b', ns) →
        ∃ c, clookup id b.cursors = some c ∧
          clookup id b'.cursors = some (c + 1) ∧
          (∀ j, j ≠ id → clookup j b'.cursors = clookup j b.cursors) ∧
          b'.next_cursor_id = b.next_cursor_id ∧
          b'.corked = b.corked ∧ b'.sender_count = b.sender_count ∧
          b'.poisoned = b.poisoned ∧ b'.bound = b.bound ∧
          (c ≠ b.offset → b'.data = b.data ∧ b'.offset = b.offset) ∧
          ((b'.data = b.data ∧ b'.offset = b.offset) ∨
            (c = b.offset ∧ b'.data = b.data.tail ∧ b'.offset = b.offset + 1)) := by
    intro v b' ns h
    obtain ⟨c, hc, hg, hnext, hck, hsc, hpp, hbd, hcur, hdis⟩ := recv_body_spec h
    refine ⟨c, hc, by rw [hcur]; exact clookup_cinsert_self _ _ _,
      fun j hj => by rw [hcur]; exact clookup_cinsert_ne _ _ hj,
      hnext, hck, hsc, hpp, hbd, ?_, ?_⟩
    · intro hne
      rcases hdis with ⟨hd, ho, _⟩ | ⟨hco, _, _, _⟩
      · exact ⟨hd, ho⟩
      · exact absurd hco hne
    · rcases hdis with ⟨hd, ho, _⟩ | ⟨hco, hd, ho, _⟩
      · exact Or.inl ⟨hd, ho⟩
      · exact Or.inr ⟨hco, hd, ho⟩
  refine ⟨?_, ?_, ?_, ?_⟩
  · intro v b' ns h
    exact frame v b' ns (try_recv_ok_recv_body h).2
  · intro b' ns h
    unfold Buffer.try_recv at h
    by_cases hp : b.poisoned
    · rw [if_pos hp] at h
      injection h with h1
      injection h1 with h1 h2
      exact absurd h1 (by intro hh; exact Except.noConfusion hh)
    · simp only [hp, Bool.false_eq_true, if_false] at h
      cases hc : clookup id b.cursors with
      | none => rw [hc] at h; exact absurd h (by simp)
      | some c =>
        rw [hc] at h
        simp only at h
        by_cases hcaught : b.data.length + b.offset ≤ c
        · rw [if_pos hcaught] at h
          by_cases hck : b.corked
          · rw [if_pos hck] at h
            injection h with h1
            injection h1 with h1 h2
            exact absurd h1 (by intro hh; exact Except.noConfusion hh)
          · simp only [hck, Bool.false_eq_true, if_false] at h
            injection h with h1
            injection h1 with h1 h2
            injection h2 with h2 h3
            exact ⟨h2.symm, h3.symm⟩
        · rw [if_neg hcaught] at h
          cases hb : b.recv_body id with
          | none => rw [hb] at h; exact absurd h (by simp)
          | some p =>
            obtain ⟨w, b'', ns'⟩ := p
            rw [hb] at h
            injection h with h1
            injection h1 with h1 h2
            exact absurd h1 (by intro hh; exact Option.noConfusion (Except.ok.inj hh))
  · intro e b' ns h
    unfold Buffer.try_recv at h
    by_cases hp : b.poisoned
    · rw [if_pos hp] at h
      injection h with h1
      injection h1 with h1 h2
      injection h2 with h2 h3
      exact ⟨h2.symm, h3.symm⟩
    · simp only [hp, Bool.false_eq_true, if_false] at h
      cases hc : clookup id b.cursors with
      | none => rw [hc] at h; exact absurd h (by simp)
      | some c =>
        rw [hc] at h
        simp only at h
        by_cases hcaught : b.data.length + b.offset ≤ c
        · rw [if_pos hcaught] at h
          by_cases hck : b.corked
          · rw [if_pos hck] at h
            injection h with h1
            injection h1 with h1 h2
            injection h2 with h2 h3
            exact ⟨h2.symm, h3.symm⟩
          · simp only [hck, Bool.false_eq_true, if_false] at h
            injection h with h1
            injection h1 with h1 h2
            exact absurd h1 (by intro hh; exact Except.noConfusion hh)
        · rw [if_neg hcaught] at h
          cases hb : b.recv_body id with
          | none => rw [hb] at h; exact absurd h (by simp)
          | some p =>
            obtain ⟨w, b'', ns'⟩ := p
            rw [hb] at h
            injection h with h1
            injection h1 with h1 h2
            exact absurd h1 (by intro hh; exact Except.noConfusion hh)
  · intro v b' ns h
    obtain ⟨c, hc, hc', hother, _⟩ := frame v b' ns (recv_ready_got_recv_body h).2
    exact ⟨c, hc, hc', hother⟩

/-- C10 witness: a concrete successful `try_recv` advances cursor 0 from
0 to 1. -/
theorem C10_recv_frame_witness :
    clookup 0 (Buffer.mk [] 1 [(0, 1)] 1 false 1 false 1 : Buffer Nat).cursors =
      some (0 + 1) := by
  obtain ⟨c, hc, hc', -⟩ :=
    (C10_recv_frame (Buffer.mk [7] 0 [(0, 0)] 1 false 1 false 1 : Buffer Nat) 0).1
      7 (Buffer.mk [] 1 [(0, 1)] 1 false 1 false 1 : Buffer Nat)
      [Notif.one Cv.onDataConsumed] rfl
  injection hc with hc0
  subst hc0
  exact hc'
